import Mathlib

/-!
# mace/core/operator.cc : operator registry and operator initialisation

A shallow embedding of `src/mace/core/operator.cc`.

* A fatal check (`MACE_CHECK`, `MACE_CHECK_NOTNULL`, `LOG(FATAL)`) halts the process.  A function
  that can hit one returns an `Outcome`, which is either `ok state value` (the function returned
  `value`, leaving the mutable objects it works on in `state`) or `fatal state check` (the process
  stopped at `check`, the mutable objects being in `state` at that point).
* `std::map` and `std::unordered_map` keyed by strings are association lists (`StdMap`); only
  `count`, `at` and `operator[]` occur in the file, so the iteration order is never observed.
* `std::set<DeviceType>` is a `Finset`.
* Enumerations that are converted from and to `int` by `static_cast` (`DataType`, `NetMode`,
  `DeviceType`) are integers.  No arithmetic is done on them, so no overflow can occur.
* A `Tensor *` is either null or points to a tensor that a workspace owns under a name; it is
  represented by that name (`TensorPtr`).
-/

namespace mace

/-! ## Result of a call that may stop at a fatal check -/

/-- The fatal checks of operator.cc, one constructor for each place where the process can stop. -/
inductive Fatal where
  /-- Line 42: `MACE_CHECK(tensor != nullptr, ...)`, with the operator type and the input name. -/
  | nonExistingInput (op_type : String) (input_str : String)
  /-- Line 53: `MACE_CHECK(output_type_size() == 0 || output_size() == output_type_size(), ...)`,
  with the two sizes. -/
  | outputTypeSize (output_size : Nat) (output_type_size : Nat)
  /-- Line 67: `MACE_CHECK_NOTNULL(ws->CreateTensor(...))`. -/
  | createTensorNull (output_str : String)
  /-- Line 134: `MACE_CHECK(creators.count(key) == 0, "Key already registered: ", key)`. -/
  | keyAlreadyRegistered (key : String)
  /-- Lines 158 and 181: `MACE_CHECK(registry_.count(op_type) != 0, op_type,
  " operation is not registered.")`. -/
  | notRegistered (op_type : String)
  /-- Line 189: `LOG(FATAL) << "Key not registered: " << key`. -/
  | keyNotRegistered (key : String)
  /-- A null pointer is dereferenced, or `at` is called with a key that is not in the map. -/
  | invalidAccess
  deriving DecidableEq, Repr

/-- Outcome of a call: `ok state value` when it returns, `fatal state check` when the process is
halted by `check`; `state` is the state of the mutable objects at the return or at the halt. -/
inductive Outcome (σ : Type) (α : Type) where
  | ok (state : σ) (value : α)
  | fatal (state : σ) (check : Fatal)
  deriving DecidableEq, Repr

namespace Outcome

variable {σ α : Type}

/-- The state at the return or at the halt. -/
def state : Outcome σ α → σ
  | ok s _ => s
  | fatal s _ => s

/-- True when the call returned. -/
def isOk : Outcome σ α → Bool
  | ok _ _ => true
  | fatal _ _ => false

/-- True when the call ended in a fatal check. -/
def isFatal : Outcome σ α → Bool
  | ok _ _ => false
  | fatal _ _ => true

end Outcome

/-- The value type `MaceStatus`; operator.cc only ever returns `MACE_SUCCESS`. -/
inductive MaceStatus where
  | MACE_SUCCESS
  deriving DecidableEq, Repr

/-! ## String-keyed maps -/

/-- A `std::map<std::string, V>` or `std::unordered_map<std::string, V>`. -/
abbrev StdMap (V : Type) := List (String × V)

namespace StdMap

variable {V : Type}

/-- The value stored under `k`, if any (`find`). -/
def find? : StdMap V → String → Option V
  | [], _ => none
  | (k', v) :: rest, k => if k' = k then some v else find? rest k

/-- The number of entries under `k` (`count`): 0 or 1. -/
def count (m : StdMap V) (k : String) : Nat :=
  if (find? m k).isSome then 1 else 0

/-- The assignment `m[k] = v`: replaces the value under `k`, or adds the entry. -/
def set : StdMap V → String → V → StdMap V
  | [], k, v => [(k, v)]
  | (k', v') :: rest, k, v => if k' = k then (k, v) :: rest else (k', v') :: set rest k v

end StdMap

/-! ## Declarations used by operator.cc that live in other files -/

/-- The enumeration `DeviceType`; `operator<<` prints it as an `int`. -/
abbrev DeviceType := Int

/-- The enumeration `DataType`, obtained by `static_cast` from an `int` argument. -/
abbrev DataType := Int

/-- The enumeration `NetMode`, obtained by `static_cast` from an `int` argument. -/
abbrev NetMode := Int

/-- The integer type `index_t` of tensor dimensions. -/
abbrev index_t := Int

/-- Modelled from the spec: the constants and the helper that operator.cc takes from headers
outside the file. `DT_FLOAT` is the "fixed default type", `NORMAL` the "normal" execution mode
and `DataTypeToString` gives "the stringified type" used by the key encoder.  Their values are
arbitrary. -/
structure Decls where
  DT_FLOAT : DataType
  NORMAL : NetMode
  DataTypeToString : DataType → String

/-- Modelled from the spec: a declared output shape of a node descriptor, the list of its dims. -/
structure OutputShape where
  dims : List index_t
  deriving DecidableEq, Repr

/-- Modelled from the spec: a named argument of a node descriptor with its integer value. -/
structure Argument where
  name : String
  i : Int
  deriving DecidableEq, Repr

/-- Modelled from the spec: the node descriptor `OperatorDef` ("name, operator kind (string),
ordered input names, ordered output names, per-output optional declared type, per-output optional
declared shape, and a mapping of named arguments"). -/
structure OperatorDef where
  name : String
  type : String
  input : List String
  output : List String
  output_type : List DataType
  output_shape : List OutputShape
  arg : List Argument
  deriving DecidableEq, Repr

/-- Modelled from the spec: `ProtoArgHelper::GetOptionalArg<OperatorDef, int>`, the
"named-argument lookup with typed optional-default semantics": the value of the argument called
`arg_name`, or `default_value` when the descriptor has no such argument. -/
def GetOptionalArg (operator_def : OperatorDef) (arg_name : String) (default_value : Int) : Int :=
  match operator_def.arg.find? (fun a => a.name = arg_name) with
  | some a => a.i
  | none => default_value

/-- Modelled from the spec: the allocator of a device, an identifier. -/
abbrev Allocator := Nat

/-- Modelled from the spec: a device, which "exposes an allocator used for new-tensor
creation". -/
structure Device where
  allocator : Allocator
  deriving DecidableEq, Repr

/-- Modelled from the spec: a tensor, a "named, typed, shaped storage unit". `id` is the identity
of the object (two tensor objects created by one store have different `id`s), `shape_configured`
the advisory "configured shape" hint. -/
structure Tensor where
  id : Nat
  allocator : Allocator
  dtype : DataType
  shape_configured : List index_t
  deriving DecidableEq, Repr

/-- A `Tensor *`: `none` is the null pointer, `some name` points to the tensor that the store owns
under `name`. -/
abbrev TensorPtr := Option String

/-- Modelled from the spec: the tensor store, "name-keyed, single namespace per store instance".
`created` counts the tensor objects the store has created; it gives a new tensor its `id`. -/
structure Workspace where
  tensor_map_ : StdMap Tensor
  created : Nat
  deriving DecidableEq, Repr

namespace Workspace

/-- Modelled from the spec: `HasTensor(name) -> bool`. -/
def HasTensor (ws : Workspace) (name : String) : Bool :=
  (StdMap.find? ws.tensor_map_ name).isSome

/-- Modelled from the spec: `GetTensor(name) -> Tensor* | null`. -/
def GetTensor (ws : Workspace) (name : String) : TensorPtr :=
  if ws.HasTensor name then some name else none

/-- The tensor a pointer points to, if the pointer is not null and its tensor is in the store. -/
def deref (ws : Workspace) : TensorPtr → Option Tensor
  | none => none
  | some name => StdMap.find? ws.tensor_map_ name

/-- Modelled from the spec: `CreateTensor(name, allocator, type) -> Tensor*`: "the new tensor is
created through the device's allocator and registered into the store under the output name".  The
pointer returned is never null: exhaustion of memory is outside the model. -/
def CreateTensor (ws : Workspace) (name : String) (alloc : Allocator) (type : DataType) :
    TensorPtr × Workspace :=
  (some name,
   { tensor_map_ := StdMap.set ws.tensor_map_ name
       { id := ws.created, allocator := alloc, dtype := type, shape_configured := [] },
     created := ws.created + 1 })

/-- Modelled from the spec: `p->SetShapeConfigured(shape)` for a pointer `p` into the store:
records the "configured shape" hint on the tensor; `none` when `p` is null or dangling. -/
def SetShapeConfigured (ws : Workspace) (p : TensorPtr) (shape : List index_t) :
    Option Workspace :=
  match p with
  | none => none
  | some name =>
    match StdMap.find? ws.tensor_map_ name with
    | none => none
    | some t =>
      some { ws with tensor_map_ := StdMap.set ws.tensor_map_ name
                       { t with shape_configured := shape } }

end Workspace

/-! ## Contexts (lines 24 to 32) -/

/-- The class `OpConstructContext`: a node descriptor (null after the one-argument constructor),
a workspace and a device (null after the one-argument constructor). -/
structure OpConstructContext where
  operator_def_ : Option OperatorDef
  ws_ : Workspace
  device_ : Option Device
  deriving DecidableEq, Repr

/-- Line 24: `OpConstructContext::OpConstructContext(Workspace *ws)`. -/
def OpConstructContext.ofWorkspace (ws : Workspace) : OpConstructContext :=
  { operator_def_ := none, ws_ := ws, device_ := none }

/-- Line 26: `OpConstructContext::OpConstructContext(OperatorDef *, Workspace *, Device *)`. -/
def OpConstructContext.ofDef (operator_def : OperatorDef) (ws : Workspace) (device : Device) :
    OpConstructContext :=
  { operator_def_ := some operator_def, ws_ := ws, device_ := some device }

/-- The class `OpInitContext`: a workspace and a device. -/
structure OpInitContext where
  ws_ : Workspace
  device_ : Device
  deriving DecidableEq, Repr

/-! ## Operation (lines 34 to 81) -/

/-- The class `Operation`: its own copy of the node descriptor and the tensors bound to its
inputs and outputs. -/
structure Operation where
  operator_def_ : OperatorDef
  inputs_ : List TensorPtr
  outputs_ : List TensorPtr
  deriving DecidableEq, Repr

/-- A `std::unique_ptr<Operation>`: `none` is the null pointer. -/
abbrev UniquePtr (α : Type) := Option α

/-- Line 34: `Operation::Operation(OpConstructContext *context)` copies the descriptor of the
context; `none` when the context has no descriptor (a null pointer would be dereferenced). -/
def Operation.ofContext (context : OpConstructContext) : Option Operation :=
  match context.operator_def_ with
  | none => none
  | some operator_def => some { operator_def_ := operator_def, inputs_ := [], outputs_ := [] }

/-- Lines 40 to 45: the loop over the declared inputs, started with the inputs that remain. -/
def Operation.InitInputs (ws : Workspace) : List String → Operation →
    Outcome (Operation × Workspace) Unit
  | [], self => .ok (self, ws) ()
  | input_str :: rest, self =>
    let tensor := ws.GetTensor input_str
    if tensor ≠ none then
      Operation.InitInputs ws rest { self with inputs_ := self.inputs_ ++ [tensor] }
    else
      .fatal (self, ws) (.nonExistingInput self.operator_def_.type input_str)

/-- Lines 71 to 75: the vector `shape_configured`, of size `dims_size()`, filled entry by entry
with `dims(dim)`. -/
def shapeConfigured (shape : OutputShape) : List index_t :=
  (List.range shape.dims.length).map (fun dim => shape.dims.getD dim 0)

/-- Lines 48 to 78: the body of the loop over the outputs, at index `i`. -/
def Operation.InitOutput (D : Decls) (device : Device) (i : Nat) (self : Operation)
    (ws : Workspace) : Outcome (Operation × Workspace) Unit :=
  let operator_def := self.operator_def_
  let output_str := operator_def.output.getD i ""
  if ws.HasTensor output_str then
    .ok ({ self with outputs_ := self.outputs_ ++ [ws.GetTensor output_str] }, ws) ()
  else
    if operator_def.output_type.length = 0 ∨
        operator_def.output.length = operator_def.output_type.length then
      let output_type : DataType :=
        if h : i < operator_def.output_type.length then operator_def.output_type[i]
        else GetOptionalArg operator_def "T" D.DT_FLOAT
      match ws.CreateTensor output_str device.allocator output_type with
      | (none, ws1) => .fatal (self, ws1) (.createTensorNull output_str)
      | (some t, ws1) =>
        let self1 := { self with outputs_ := self.outputs_ ++ [some t] }
        if h : i < operator_def.output_shape.length then
          let shape_configured := shapeConfigured operator_def.output_shape[i]
          match ws1.SetShapeConfigured (ws1.GetTensor output_str) shape_configured with
          | none => .fatal (self1, ws1) .invalidAccess
          | some ws2 => .ok (self1, ws2) ()
        else
          .ok (self1, ws1) ()
    else
      .fatal (self, ws) (.outputTypeSize operator_def.output.length operator_def.output_type.length)

/-- Lines 47 to 79: the loop `for (int i = 0; i < output_size(); ++i)`, entered at index `i` with
`n` iterations left (`n = output_size() - i`). -/
def Operation.InitOutputs (D : Decls) (device : Device) : Nat → Nat → Operation → Workspace →
    Outcome (Operation × Workspace) Unit
  | 0, _, self, ws => .ok (self, ws) ()
  | n + 1, i, self, ws =>
    match Operation.InitOutput D device i self ws with
    | .fatal s c => .fatal s c
    | .ok (self1, ws1) () => Operation.InitOutputs D device n (i + 1) self1 ws1

/-- Lines 38 to 81: `MaceStatus Operation::Init(OpInitContext *context)`.  The state of the
outcome is the operation together with the workspace of the context. -/
def Operation.Init (D : Decls) (self : Operation) (context : OpInitContext) :
    Outcome (Operation × Workspace) MaceStatus :=
  let ws := context.ws_
  match Operation.InitInputs ws self.operator_def_.input self with
  | .fatal s c => .fatal s c
  | .ok (self1, ws1) () =>
    match Operation.InitOutputs D context.device_ self1.operator_def_.output.length 0 self1 ws1 with
    | .fatal s c => .fatal s c
    | .ok s () => .ok s .MACE_SUCCESS

/-! ## Key encoder (lines 85 to 125) -/

/-- The output of `operator<<` for an `int`: its decimal representation. -/
def streamInt (n : Int) : String := toString n

/-- The class `OpKeyBuilder`. -/
structure OpKeyBuilder where
  op_name_ : String
  device_type_ : DeviceType
  type_constraint_ : StdMap DataType
  deriving DecidableEq, Repr

namespace OpKeyBuilder

/-- Line 102: `OpKeyBuilder::OpKeyBuilder(const std::string &op_name)`.  The constructor leaves
`device_type_` without a value; it is 0 here, and both users of the class set it with `Device`
before they call `Build`. -/
def new (op_name : String) : OpKeyBuilder :=
  { op_name_ := op_name, device_type_ := 0, type_constraint_ := [] }

/-- Line 104: `OpKeyBuilder::Device`. -/
def Device (self : OpKeyBuilder) (device : DeviceType) : OpKeyBuilder :=
  { self with device_type_ := device }

/-- Line 109: `OpKeyBuilder::TypeConstraint`. -/
def TypeConstraint (self : OpKeyBuilder) (attr_name : String) (allowed : DataType) :
    OpKeyBuilder :=
  { self with type_constraint_ := StdMap.set self.type_constraint_ attr_name allowed }

/-- The constant `type_order` of line 116. -/
def type_order : List String := ["T"]

/-- Line 115: `OpKeyBuilder::Build`.  `type_constraint_[type]` is the value stored under `type`,
or the value-initialised `DataType` (0) when there is none. -/
def Build (D : Decls) (self : OpKeyBuilder) : String :=
  let ss := ""
  let ss := ss ++ self.op_name_
  let ss := ss ++ streamInt self.device_type_
  type_order.foldl
    (fun ss type =>
      ss ++ type ++ "_" ++ D.DataTypeToString ((StdMap.find? self.type_constraint_ type).getD 0))
    ss

end OpKeyBuilder

/-! ## Registration record (lines 128 to 136) -/

/-- The type `OpRegistrationInfo::OpCreator`, a factory
`std::function<std::unique_ptr<Operation>(OpConstructContext *)>`. -/
abbrev OpCreator := OpConstructContext → UniquePtr Operation

/-- The class `OpRegistrationInfo`: the devices that support an operator kind and its
factories by key. -/
structure OpRegistrationInfo where
  devices : Finset DeviceType
  creators : StdMap OpCreator

namespace OpRegistrationInfo

/-- The record made by `new OpRegistrationInfo`. -/
def new : OpRegistrationInfo := { devices := ∅, creators := [] }

/-- Line 128: `OpRegistrationInfo::AddDevice`. -/
def AddDevice (self : OpRegistrationInfo) (device : DeviceType) : OpRegistrationInfo :=
  { self with devices := insert device self.devices }

/-- Line 132: `OpRegistrationInfo::Register`. -/
def Register (self : OpRegistrationInfo) (key : String) (creator : OpCreator) :
    Outcome OpRegistrationInfo Unit :=
  if StdMap.count self.creators key = 0 then
    .ok { self with creators := StdMap.set self.creators key creator } ()
  else
    .fatal self (.keyAlreadyRegistered key)

end OpRegistrationInfo

/-! ## Registry (lines 138 to 195) -/

/-- The class `OpRegistryBase`: the registration records by operator kind. -/
structure OpRegistryBase where
  registry_ : StdMap OpRegistrationInfo

namespace OpRegistryBase

/-- The registry before any registration. -/
def empty : OpRegistryBase := { registry_ := [] }

/-- The key of lines 148 and 184:
`OpKeyBuilder(op_type).Device(device_type).TypeConstraint("T", dt).Build()`. -/
def opKey (D : Decls) (op_type : String) (device_type : DeviceType) (dt : DataType) : String :=
  (((OpKeyBuilder.new op_type).Device device_type).TypeConstraint "T" dt).Build D

/-- Line 138: `OpRegistryBase::Register`.  A record is changed in place through the pointer
that the map holds, so the registry after a step is the map with the changed record under
`op_type`. -/
def Register (D : Decls) (self : OpRegistryBase) (op_type : String) (device_type : DeviceType)
    (dt : DataType) (creator : OpCreator) : Outcome OpRegistryBase MaceStatus :=
  let self1 : OpRegistryBase :=
    if StdMap.count self.registry_ op_type = 0 then
      { registry_ := StdMap.set self.registry_ op_type OpRegistrationInfo.new }
    else self
  match StdMap.find? self1.registry_ op_type with
  | none => .fatal self1 .invalidAccess
  | some info =>
    let self2 : OpRegistryBase :=
      { registry_ := StdMap.set self1.registry_ op_type (info.AddDevice device_type) }
    let op_key := opKey D op_type device_type dt
    match StdMap.find? self2.registry_ op_type with
    | none => .fatal self2 .invalidAccess
    | some info2 =>
      match info2.Register op_key creator with
      | .fatal info3 c => .fatal { registry_ := StdMap.set self2.registry_ op_type info3 } c
      | .ok info3 () => .ok { registry_ := StdMap.set self2.registry_ op_type info3 } .MACE_SUCCESS

/-- Line 156: `OpRegistryBase::AvailableDevices`. -/
def AvailableDevices (self : OpRegistryBase) (op_type : String) :
    Outcome OpRegistryBase (Finset DeviceType) :=
  if StdMap.count self.registry_ op_type ≠ 0 then
    match StdMap.find? self.registry_ op_type with
    | none => .fatal self .invalidAccess
    | some info => .ok self info.devices
  else
    .fatal self (.notRegistered op_type)

/-- Line 165: `OpRegistryBase::CreateOperation`.  The method is `const`; the state of the outcome
is the list of the keys whose factory has been invoked (line 191), which is empty unless the
call reaches line 191. -/
def CreateOperation (D : Decls) (self : OpRegistryBase) (context : OpConstructContext)
    (device_type : DeviceType) (mode : NetMode) : Outcome (List String) (UniquePtr Operation) :=
  match context.operator_def_ with
  | none => .fatal [] .invalidAccess
  | some operator_def =>
    let dtype : DataType := GetOptionalArg operator_def "T" D.DT_FLOAT
    let op_mode_i := GetOptionalArg operator_def "mode" D.NORMAL
    let op_mode : NetMode := op_mode_i
    if op_mode = mode then
      let op_type := operator_def.type
      if StdMap.count self.registry_ op_type ≠ 0 then
        let key := opKey D op_type device_type dtype
        match StdMap.find? self.registry_ op_type with
        | none => .fatal [] .invalidAccess
        | some info =>
          if StdMap.count info.creators key = 0 then
            .fatal [] (.keyNotRegistered key)
          else
            match StdMap.find? info.creators key with
            | none => .fatal [] .invalidAccess
            | some creator => .ok [key] (creator context)
      else
        .fatal [] (.notRegistered op_type)
    else
      .ok [] none

end OpRegistryBase

/-! ## Sequences of registrations -/

/-- One call `Register(op_type, device_type, dt, creator)`. -/
structure Registration where
  op_type : String
  device_type : DeviceType
  dt : DataType
  creator : OpCreator

/-- The calls of `OpRegistryBase::Register` for a list of registrations, in order; the process
stops at the first fatal check. -/
def RegisterAll (D : Decls) : OpRegistryBase → List Registration →
    Outcome OpRegistryBase MaceStatus
  | self, [] => .ok self .MACE_SUCCESS
  | self, r :: rest =>
    match self.Register D r.op_type r.device_type r.dt r.creator with
    | .fatal s c => .fatal s c
    | .ok s _ => RegisterAll D s rest

/-! ## Definitions used in the statements and proofs -/

/-- The number that a list of decimal digit characters denotes (most significant first). -/
def decimalValue (cs : List Char) : Nat :=
  cs.foldl (fun a c => 10 * a + (c.toNat - 48)) 0

/-- A decimal digit character. -/
def isDecimalDigit (c : Char) : Prop := 48 ≤ c.toNat ∧ c.toNat ≤ 57

/-- The record of a kind in the registry, or the record made by `new OpRegistrationInfo` when the
kind has none. -/
def OpRegistryBase.recordOf (self : OpRegistryBase) (op_type : String) : OpRegistrationInfo :=
  (StdMap.find? self.registry_ op_type).getD OpRegistrationInfo.new

/-- The data type that lines 59 to 66 choose for a tensor created at output index `i`. -/
def outputType (D : Decls) (operator_def : OperatorDef) (i : Nat) : DataType :=
  if h : i < operator_def.output_type.length then operator_def.output_type[i]
  else GetOptionalArg operator_def "T" D.DT_FLOAT

/-- The tensor that the body of the output loop leaves in the store when it creates one at
output index `i`: created by line 67 and given its configured shape by line 76. -/
def newTensor (D : Decls) (device : Device) (operator_def : OperatorDef) (i : Nat)
    (ws : Workspace) : Tensor :=
  { id := ws.created, allocator := device.allocator, dtype := outputType D operator_def i,
    shape_configured :=
      if h : i < operator_def.output_shape.length then
        shapeConfigured operator_def.output_shape[i]
      else [] }

/-! ## Example data -/

/-- Example declarations: `DT_FLOAT` is 1, `NORMAL` is 1 and a numeric type is printed as its
number. -/
def exampleDecls : Decls := { DT_FLOAT := 1, NORMAL := 1, DataTypeToString := streamInt }

/-- An example factory, which builds the base operation for the descriptor of the context. -/
def baseCreator : OpCreator := fun context => Operation.ofContext context

/-- An example factory, which returns a null pointer. -/
def nullCreator : OpCreator := fun _ => none

/-- Example registrations: "Conv" for device 0 and for device 2 with type 1, and "Pool" for
device 0 with type 1. -/
def exampleCalls : List Registration :=
  [ { op_type := "Conv", device_type := 0, dt := 1, creator := nullCreator },
    { op_type := "Conv", device_type := 2, dt := 1, creator := baseCreator },
    { op_type := "Pool", device_type := 0, dt := 1, creator := nullCreator } ]

/-- The registry after the example registrations. -/
def exampleRegistry : OpRegistryBase :=
  (RegisterAll exampleDecls OpRegistryBase.empty exampleCalls).state

/-- An example node descriptor of kind "Conv" with the arguments "T" = 1 and "mode" = 1. -/
def exampleDef : OperatorDef :=
  { name := "conv1", type := "Conv", input := ["in0"], output := ["out0"], output_type := [],
    output_shape := [], arg := [{ name := "T", i := 1 }, { name := "mode", i := 1 }] }

/-- An empty tensor store. -/
def emptyWorkspace : Workspace := { tensor_map_ := [], created := 0 }

/-- An example construction context for `exampleDef`. -/
def exampleContext : OpConstructContext :=
  OpConstructContext.ofDef exampleDef emptyWorkspace { allocator := 0 }

/-- A tensor of the given data type, with identity 0 and no configured shape. -/
def exampleTensor (dtype : DataType) : Tensor :=
  { id := 0, allocator := 0, dtype := dtype, shape_configured := [] }

/-- An example store that holds a tensor of type 1 under "in0" only. -/
def storeIn0 : Workspace := { tensor_map_ := [("in0", exampleTensor 1)], created := 1 }

/-- An example store that holds a tensor of type 1 under "in0" and one of type 2 under
"out0". -/
def storeIn0Out0 : Workspace :=
  { tensor_map_ := [("in0", exampleTensor 1), ("out0", { exampleTensor 2 with id := 1 })],
    created := 2 }

/-- The operation that the constructor makes for a descriptor. -/
def operationOf (operator_def : OperatorDef) : Operation :=
  { operator_def_ := operator_def, inputs_ := [], outputs_ := [] }

/-- An example node: inputs "in0" and "in1", output "out0". -/
def defTwoInputs : OperatorDef :=
  { name := "conv1", type := "Conv", input := ["in0", "in1"], output := ["out0"],
    output_type := [], output_shape := [], arg := [] }

/-- An example node: input "in0", outputs "x" and "out0", and a type list of one entry. -/
def defShortTypeList : OperatorDef :=
  { name := "split1", type := "Split", input := ["in0"], output := ["x", "out0"],
    output_type := [4], output_shape := [], arg := [] }

/-- An example node: input "in0", output "out0" with declared type 4 and "T" = 3. -/
def defOut0 : OperatorDef :=
  { name := "conv1", type := "Conv", input := ["in0"], output := ["out0"],
    output_type := [4], output_shape := [], arg := [{ name := "T", i := 3 }] }

/-- An example node: input "in0", outputs "a" and "b" with the type list 4, 1 and "T" = 3. -/
def defTwoOutputs : OperatorDef :=
  { name := "split1", type := "Split", input := ["in0"], output := ["a", "b"],
    output_type := [4, 1], output_shape := [], arg := [{ name := "T", i := 3 }] }

/-- An example node that declares the output "a" twice, with the type list 4, 1. -/
def defRepeatedOutput : OperatorDef :=
  { name := "split1", type := "Split", input := ["in0"], output := ["a", "a"],
    output_type := [4, 1], output_shape := [], arg := [{ name := "T", i := 3 }] }

/-- An example node: input "in0", outputs "o0", "o1" and "o2", and a type list of one entry. -/
def defThreeOutputs : OperatorDef :=
  { name := "split3", type := "Split", input := ["in0"], output := ["o0", "o1", "o2"],
    output_type := [4], output_shape := [], arg := [] }

/-- An example store that holds tensors of type 1 under "in0", "o0", "o1" and "o2". -/
def storeThreeOutputs : Workspace :=
  { tensor_map_ := [("in0", exampleTensor 1), ("o0", { exampleTensor 1 with id := 1 }),
      ("o1", { exampleTensor 1 with id := 2 }), ("o2", { exampleTensor 1 with id := 3 })],
    created := 4 }

/-- An example node: input "in0", output "out0" with the declared shape 1, 2, 3. -/
def defOut0Shape : OperatorDef :=
  { name := "conv1", type := "Conv", input := ["in0"], output := ["out0"],
    output_type := [], output_shape := [{ dims := [1, 2, 3] }], arg := [] }

/-- An example node: input "in0", outputs "a" and "b", no type list and "T" = 3. -/
def defNoTypeList : OperatorDef :=
  { name := "split1", type := "Split", input := ["in0"], output := ["a", "b"],
    output_type := [], output_shape := [], arg := [{ name := "T", i := 3 }] }

/-- The operation for `defTwoOutputs` after a first successful `Init` on `storeIn0`: it holds
the pointer to "in0" and the pointers to "a" and "b". -/
def operationTwoOutputsInitialised : Operation :=
  { operator_def_ := defTwoOutputs, inputs_ := [some "in0"], outputs_ := [some "a", some "b"] }

/-- The store after `Init` of the operation for `defTwoOutputs` on `storeIn0`. -/
def storeAfterTwoOutputs : Workspace :=
  { tensor_map_ := [("in0", exampleTensor 1),
      ("a", { id := 1, allocator := 0, dtype := 4, shape_configured := [] }),
      ("b", { id := 2, allocator := 0, dtype := 1, shape_configured := [] })],
    created := 3 }

/-! # Theorems -/

/-! ## Decimal output of integers -/

theorem digitChar_mod_ten (n : Nat) :
    isDecimalDigit (Nat.digitChar (n % 10)) ∧ (Nat.digitChar (n % 10)).toNat - 48 = n % 10 := by
  have h : n % 10 < 10 := Nat.mod_lt _ (by decide)
  generalize n % 10 = d at h
  unfold isDecimalDigit
  interval_cases d <;> decide

theorem toDigitsCore_digits (fuel : Nat) : ∀ (n : Nat) (ds : List Char),
    (∀ c ∈ ds, isDecimalDigit c) → ∀ c ∈ Nat.toDigitsCore 10 fuel n ds, isDecimalDigit c := by
  induction fuel with
  | zero => intro n ds h; simpa [Nat.toDigitsCore] using h
  | succ fuel ih =>
    intro n ds h
    have hd := (digitChar_mod_ten n).1
    have hcons : ∀ c ∈ Nat.digitChar (n % 10) :: ds, isDecimalDigit c := by
      intro c hc
      rcases List.mem_cons.mp hc with rfl | hc
      · exact hd
      · exact h c hc
    simp only [Nat.toDigitsCore]
    split
    · exact hcons
    · exact ih _ _ hcons

theorem toDigitsCore_value (fuel : Nat) : ∀ (n : Nat) (ds : List Char), n < fuel →
    (Nat.toDigitsCore 10 fuel n ds).foldl (fun a c => 10 * a + (c.toNat - 48)) 0
      = ds.foldl (fun a c => 10 * a + (c.toNat - 48)) n := by
  induction fuel with
  | zero => intro n ds h; omega
  | succ fuel ih =>
    intro n ds h
    have hv := (digitChar_mod_ten n).2
    simp only [Nat.toDigitsCore]
    split
    · rename_i h0
      simp only [List.foldl_cons, hv]
      congr 1
      omega
    · rename_i h0
      rw [ih (n / 10) _ (by omega)]
      simp only [List.foldl_cons, hv]
      congr 1
      omega

theorem decimalValue_repr (n : Nat) : decimalValue (Nat.repr n).data = n := by
  simp only [decimalValue, Nat.repr, Nat.toDigits, List.asString]
  rw [toDigitsCore_value _ _ _ (Nat.lt_succ_self n)]
  rfl

theorem repr_digits (n : Nat) : ∀ c ∈ (Nat.repr n).data, isDecimalDigit c := by
  simp only [Nat.repr, Nat.toDigits, List.asString]
  exact toDigitsCore_digits _ _ _ (by simp)

theorem streamInt_ofNat (m : Nat) : (streamInt (Int.ofNat m)).data = (Nat.repr m).data := rfl

theorem streamInt_negSucc (m : Nat) :
    (streamInt (Int.negSucc m)).data = '-' :: (Nat.repr (m + 1)).data := rfl

theorem streamInt_injective : Function.Injective streamInt := by
  intro a b h
  have hd : (streamInt a).data = (streamInt b).data := by rw [h]
  have hminus : ¬ isDecimalDigit '-' := by unfold isDecimalDigit; decide
  cases a with
  | ofNat m =>
    cases b with
    | ofNat m' =>
      rw [streamInt_ofNat, streamInt_ofNat] at hd
      have := congrArg decimalValue hd
      rw [decimalValue_repr, decimalValue_repr] at this
      rw [this]
    | negSucc m' =>
      rw [streamInt_ofNat, streamInt_negSucc] at hd
      exact absurd (repr_digits m '-' (by rw [hd]; exact List.mem_cons_self _ _)) hminus
  | negSucc m =>
    cases b with
    | ofNat m' =>
      rw [streamInt_ofNat, streamInt_negSucc] at hd
      exact absurd (repr_digits m' '-' (by rw [← hd]; exact List.mem_cons_self _ _)) hminus
    | negSucc m' =>
      rw [streamInt_negSucc, streamInt_negSucc] at hd
      have := congrArg decimalValue (List.cons.inj hd).2
      rw [decimalValue_repr, decimalValue_repr] at this
      have hm : m = m' := by omega
      rw [hm]

theorem streamInt_no_T (n : Int) : 'T' ∉ (streamInt n).data := by
  have hT : ¬ isDecimalDigit 'T' := by unfold isDecimalDigit; decide
  cases n with
  | ofNat m =>
    rw [streamInt_ofNat]
    exact fun h => hT (repr_digits m 'T' h)
  | negSucc m =>
    rw [streamInt_negSucc]
    intro h
    rcases List.mem_cons.mp h with h | h
    · exact absurd h (by decide)
    · exact hT (repr_digits _ 'T' h)

/-- Two lists that agree after a first occurrence of `x` in each agree before and after it. -/
theorem split_at_first {x : Char} : ∀ (a b u v : List Char), x ∉ a → x ∉ b →
    a ++ x :: u = b ++ x :: v → a = b ∧ u = v := by
  intro a
  induction a with
  | nil =>
    intro b u v _ hb h
    cases b with
    | nil => exact ⟨rfl, (List.cons.inj h).2⟩
    | cons y b =>
      have := (List.cons.inj h).1
      exact absurd (this ▸ List.mem_cons_self _ _) hb
  | cons y a ih =>
    intro b u v ha hb h
    cases b with
    | nil =>
      have := (List.cons.inj h).1
      exact absurd (this ▸ List.mem_cons_self _ _) ha
    | cons z b =>
      have h1 := List.cons.inj h
      have := ih b u v (fun hx => ha (List.mem_cons_of_mem _ hx))
        (fun hx => hb (List.mem_cons_of_mem _ hx)) h1.2
      exact ⟨by rw [h1.1, this.1], this.2⟩

/-! ## The key encoder -/

theorem opKey_eq (D : Decls) (K : String) (d : DeviceType) (t : DataType) :
    OpRegistryBase.opKey D K d t = K ++ streamInt d ++ "T" ++ "_" ++ D.DataTypeToString t := by
  simp [OpRegistryBase.opKey, OpKeyBuilder.Build, OpKeyBuilder.new, OpKeyBuilder.Device,
    OpKeyBuilder.TypeConstraint, OpKeyBuilder.type_order, StdMap.set, StdMap.find?]

theorem opKey_data (D : Decls) (K : String) (d : DeviceType) (t : DataType) :
    (OpRegistryBase.opKey D K d t).data
      = K.data ++ ((streamInt d).data ++ 'T' :: '_' :: (D.DataTypeToString t).data) := by
  rw [opKey_eq]
  simp [String.data_append]

/-- Keys of one kind are equal only for equal devices and equal type strings. -/
theorem opKey_inj (D : Decls) (K : String) (d d' : DeviceType) (t t' : DataType)
    (h : OpRegistryBase.opKey D K d t = OpRegistryBase.opKey D K d' t') :
    d = d' ∧ D.DataTypeToString t = D.DataTypeToString t' := by
  have hd := congrArg String.data h
  rw [opKey_data, opKey_data] at hd
  have h1 := List.append_cancel_left hd
  have h2 := split_at_first _ _ _ _ (streamInt_no_T d) (streamInt_no_T d') h1
  refine ⟨streamInt_injective (String.ext h2.1), String.ext ?_⟩
  exact (List.cons.inj h2.2).2

/-- Keys with one device and one type string are equal only for equal kinds. -/
theorem opKey_kind (D : Decls) (K K' : String) (d : DeviceType) (t : DataType)
    (h : OpRegistryBase.opKey D K d t = OpRegistryBase.opKey D K' d t) : K = K' := by
  have hd := congrArg String.data h
  rw [opKey_data, opKey_data] at hd
  exact String.ext (List.append_cancel_right hd)

/-! ## String-keyed maps -/

theorem StdMap.find?_set {V : Type} (m : StdMap V) (k : String) (v : V) (k' : String) :
    StdMap.find? (StdMap.set m k v) k' = if k = k' then some v else StdMap.find? m k' := by
  induction m with
  | nil => simp [StdMap.set, StdMap.find?]
  | cons e m ih =>
    obtain ⟨k0, v0⟩ := e
    simp only [StdMap.set]
    by_cases h0 : k0 = k
    · subst h0
      simp only [if_true, StdMap.find?]
      by_cases h1 : k0 = k' <;> simp [h1]
    · simp only [h0, if_false, StdMap.find?, ih]
      by_cases h1 : k0 = k'
      · have : ¬ k = k' := fun h => h0 (h1.trans h.symm)
        simp [h1, this]
      · simp [h1]

theorem StdMap.count_eq_zero {V : Type} (m : StdMap V) (k : String) :
    StdMap.count m k = 0 ↔ StdMap.find? m k = none := by
  unfold StdMap.count
  cases StdMap.find? m k <;> simp

theorem StdMap.set_find {V : Type} (m : StdMap V) (k : String) (v : V)
    (h : StdMap.find? m k = some v) : StdMap.set m k v = m := by
  induction m with
  | nil => simp [StdMap.find?] at h
  | cons e m ih =>
    obtain ⟨k0, v0⟩ := e
    simp only [StdMap.set]
    by_cases h0 : k0 = k
    · subst h0
      simp [StdMap.find?] at h
      simp [h]
    · simp only [StdMap.find?, h0, if_false] at h
      simp [h0, ih h]

/-! ## One registration -/

/-- A registration under a key that the record of the kind does not hold succeeds; it changes
the record of that kind only, adding the device and the factory. -/
theorem Register_ok (D : Decls) (self : OpRegistryBase) (K : String) (d : DeviceType)
    (t : DataType) (f : OpCreator)
    (h : StdMap.find? (self.recordOf K).creators (OpRegistryBase.opKey D K d t) = none) :
    ∃ reg, self.Register D K d t f = .ok reg .MACE_SUCCESS ∧
      ∀ K', StdMap.find? reg.registry_ K' =
        if K = K' then
          some { devices := insert d (self.recordOf K).devices,
                 creators := StdMap.set (self.recordOf K).creators
                   (OpRegistryBase.opKey D K d t) f }
        else StdMap.find? self.registry_ K' := by
  unfold OpRegistryBase.recordOf at h ⊢
  unfold OpRegistryBase.Register
  cases hK : StdMap.find? self.registry_ K with
  | none =>
    have hc : StdMap.count self.registry_ K = 0 := (StdMap.count_eq_zero _ _).2 hK
    simp only [hK, Option.getD_none] at h
    simp only [hc, if_true, StdMap.find?_set, OpRegistrationInfo.Register,
      OpRegistrationInfo.AddDevice, (StdMap.count_eq_zero _ _).2 h, Option.getD_none]
    refine ⟨_, rfl, ?_⟩
    intro K'
    simp only [StdMap.find?_set]
    by_cases hk : K = K' <;> simp [hk, OpRegistrationInfo.new]
  | some info =>
    have hc : ¬ StdMap.count self.registry_ K = 0 := by
      rw [StdMap.count_eq_zero, hK]; simp
    simp only [hK, Option.getD_some] at h
    simp only [hc, if_false, hK, StdMap.find?_set, if_true, OpRegistrationInfo.Register,
      OpRegistrationInfo.AddDevice, (StdMap.count_eq_zero _ _).2 h, Option.getD_some]
    refine ⟨_, rfl, ?_⟩
    intro K'
    simp only [StdMap.find?_set]
    by_cases hk : K = K' <;> simp [hk]

/-- A registration under a key that the record of the kind already holds stops at the check
of `OpRegistrationInfo::Register`, the device having been added to the record. -/
theorem Register_fatal (D : Decls) (self : OpRegistryBase) (K : String) (d : DeviceType)
    (t : DataType) (f : OpCreator)
    (h : StdMap.find? (self.recordOf K).creators (OpRegistryBase.opKey D K d t) ≠ none) :
    ∃ reg, self.Register D K d t f
        = .fatal reg (.keyAlreadyRegistered (OpRegistryBase.opKey D K d t)) ∧
      ∀ K', StdMap.find? reg.registry_ K' =
        if K = K' then some ((self.recordOf K).AddDevice d)
        else StdMap.find? self.registry_ K' := by
  unfold OpRegistryBase.recordOf at h ⊢
  unfold OpRegistryBase.Register
  cases hK : StdMap.find? self.registry_ K with
  | none =>
    simp [hK, OpRegistrationInfo.new, StdMap.find?] at h
  | some info =>
    have hc : ¬ StdMap.count self.registry_ K = 0 := by
      rw [StdMap.count_eq_zero, hK]; simp
    simp only [hK, Option.getD_some] at h
    have hc2 : ¬ StdMap.count info.creators (OpRegistryBase.opKey D K d t) = 0 := by
      rw [StdMap.count_eq_zero]; exact h
    simp only [hc, if_false, hK, StdMap.find?_set, if_true, OpRegistrationInfo.Register,
      OpRegistrationInfo.AddDevice, hc2, Option.getD_some]
    refine ⟨_, rfl, ?_⟩
    intro K'
    simp only [StdMap.find?_set]
    by_cases hk : K = K' <;> simp [hk]

/-- What a successful registration says about the registry before and after it. -/
theorem Register_ok_inv (D : Decls) (self reg : OpRegistryBase) (K : String) (d : DeviceType)
    (t : DataType) (f : OpCreator) (st : MaceStatus)
    (h : self.Register D K d t f = .ok reg st) :
    StdMap.find? (self.recordOf K).creators (OpRegistryBase.opKey D K d t) = none ∧
      ∀ K', StdMap.find? reg.registry_ K' =
        if K = K' then
          some { devices := insert d (self.recordOf K).devices,
                 creators := StdMap.set (self.recordOf K).creators
                   (OpRegistryBase.opKey D K d t) f }
        else StdMap.find? self.registry_ K' := by
  by_cases hf : StdMap.find? (self.recordOf K).creators (OpRegistryBase.opKey D K d t) = none
  · obtain ⟨reg', heq, hl⟩ := Register_ok D self K d t f hf
    rw [heq] at h
    injection h with h1 _
    subst h1
    exact ⟨hf, hl⟩
  · obtain ⟨reg', heq, _⟩ := Register_fatal D self K d t f hf
    rw [heq] at h
    cases h

/-- The record of a kind after a successful registration. -/
theorem recordOf_Register (D : Decls) (self reg : OpRegistryBase) (K : String) (d : DeviceType)
    (t : DataType) (f : OpCreator) (st : MaceStatus)
    (h : self.Register D K d t f = .ok reg st) (K' : String) :
    reg.recordOf K' =
      if K = K' then
        { devices := insert d (self.recordOf K).devices,
          creators := StdMap.set (self.recordOf K).creators (OpRegistryBase.opKey D K d t) f }
      else self.recordOf K' := by
  have hl := (Register_ok_inv D self reg K d t f st h).2 K'
  by_cases hk : K = K'
  · simp only [hk, if_true] at hl ⊢
    simp [OpRegistryBase.recordOf, hl]
  · simp only [hk, if_false] at hl ⊢
    simp [OpRegistryBase.recordOf, hl]

/-- A factory that is in the registry stays under its key through a successful registration. -/
theorem creator_preserved (D : Decls) (self reg : OpRegistryBase) (K2 : String)
    (d2 : DeviceType) (t2 : DataType) (g : OpCreator) (st : MaceStatus)
    (h : self.Register D K2 d2 t2 g = .ok reg st) (K key : String) (f : OpCreator)
    (hf : StdMap.find? (self.recordOf K).creators key = some f) :
    StdMap.find? (reg.recordOf K).creators key = some f := by
  rw [recordOf_Register D self reg K2 d2 t2 g st h K]
  by_cases hk : K2 = K
  · subst hk
    simp only [if_true, StdMap.find?_set]
    have hnone := (Register_ok_inv D self reg K2 d2 t2 g st h).1
    by_cases hkey : OpRegistryBase.opKey D K2 d2 t2 = key
    · rw [hkey, hf] at hnone
      cases hnone
    · simp [hkey, hf]
  · simp [hk, hf]

/-! ## Sequences of registrations -/

theorem RegisterAll_cons_ok (D : Decls) (self reg : OpRegistryBase) (r : Registration)
    (rest : List Registration) (st : MaceStatus)
    (h : RegisterAll D self (r :: rest) = .ok reg st) :
    ∃ mid st', self.Register D r.op_type r.device_type r.dt r.creator = .ok mid st' ∧
      RegisterAll D mid rest = .ok reg st := by
  simp only [RegisterAll] at h
  cases hr : self.Register D r.op_type r.device_type r.dt r.creator with
  | ok mid st' =>
    rw [hr] at h
    exact ⟨mid, st', rfl, h⟩
  | fatal s c =>
    rw [hr] at h
    cases h

theorem RegisterAll_preserved (D : Decls) (calls : List Registration) :
    ∀ (self reg : OpRegistryBase) (st : MaceStatus),
      RegisterAll D self calls = .ok reg st →
      ∀ (K key : String) (f : OpCreator),
        StdMap.find? (self.recordOf K).creators key = some f →
        StdMap.find? (reg.recordOf K).creators key = some f := by
  induction calls with
  | nil =>
    intro self reg st h K key f hf
    simp only [RegisterAll] at h
    injection h with h1 _
    subst h1
    exact hf
  | cons r rest ih =>
    intro self reg st h K key f hf
    obtain ⟨mid, st', h1, h2⟩ := RegisterAll_cons_ok D self reg r rest st h
    exact ih mid reg st h2 K key f (creator_preserved D self mid _ _ _ _ st' h1 K key f hf)

/-- After a successful sequence of registrations every factory of the sequence is in the record
of its kind under its key. -/
theorem RegisterAll_mem (D : Decls) (calls : List Registration) :
    ∀ (self reg : OpRegistryBase) (st : MaceStatus),
      RegisterAll D self calls = .ok reg st →
      ∀ r ∈ calls,
        StdMap.find? (reg.recordOf r.op_type).creators
          (OpRegistryBase.opKey D r.op_type r.device_type r.dt) = some r.creator := by
  induction calls with
  | nil => intro self reg st _ r hr; cases hr
  | cons c rest ih =>
    intro self reg st h r hr
    obtain ⟨mid, st', h1, h2⟩ := RegisterAll_cons_ok D self reg c rest st h
    rcases List.mem_cons.mp hr with rfl | hr
    · apply RegisterAll_preserved D rest mid reg st h2
      rw [recordOf_Register D self mid _ _ _ _ st' h1]
      simp [StdMap.find?_set]
    · exact ih mid reg st h2 r hr

/-! ## CreateOperation -/

/-- When the record of the node's kind holds a factory under the key of the request and the
declared mode is the requested one, `CreateOperation` invokes that factory. -/
theorem CreateOperation_found (D : Decls) (reg : OpRegistryBase) (context : OpConstructContext)
    (operator_def : OperatorDef) (d : DeviceType) (mode : NetMode) (f : OpCreator)
    (hdef : context.operator_def_ = some operator_def)
    (hmode : GetOptionalArg operator_def "mode" D.NORMAL = mode)
    (hf : StdMap.find? (reg.recordOf operator_def.type).creators
      (OpRegistryBase.opKey D operator_def.type d (GetOptionalArg operator_def "T" D.DT_FLOAT))
        = some f) :
    reg.CreateOperation D context d mode
      = .ok [OpRegistryBase.opKey D operator_def.type d
          (GetOptionalArg operator_def "T" D.DT_FLOAT)] (f context) := by
  unfold OpRegistryBase.CreateOperation
  unfold OpRegistryBase.recordOf at hf
  cases hK : StdMap.find? reg.registry_ operator_def.type with
  | none => simp [hK, OpRegistrationInfo.new, StdMap.find?] at hf
  | some info =>
    simp only [hK, Option.getD_some] at hf
    have hc : StdMap.count reg.registry_ operator_def.type ≠ 0 := by
      rw [Ne, StdMap.count_eq_zero, hK]; simp
    have hc2 : ¬ StdMap.count info.creators (OpRegistryBase.opKey D operator_def.type d
        (GetOptionalArg operator_def "T" D.DT_FLOAT)) = 0 := by
      rw [StdMap.count_eq_zero, hf]; simp
    simp [hdef, hmode, hc, hK, hc2, hf]

/-! ## C1 -/

/-- C1 (Register/CreateOperation round trip): after any sequence of successful `Register` calls
that contains the registration `r` of a factory for (kind, device, type), started from any
registry, `CreateOperation` for a node descriptor of that kind whose "T" argument resolves to
that type and whose declared mode is the requested mode, requested for that device, returns
(no fatal check) exactly the result of that factory on the context, whatever else was
registered before or after `r`. -/
theorem C1_register_create_round_trip (D : Decls) (reg0 reg : OpRegistryBase)
    (calls : List Registration) (r : Registration) (context : OpConstructContext)
    (operator_def : OperatorDef) (mode : NetMode)
    (hreg : RegisterAll D reg0 calls = .ok reg .MACE_SUCCESS)
    (hr : r ∈ calls)
    (hdef : context.operator_def_ = some operator_def)
    (hkind : operator_def.type = r.op_type)
    (htype : GetOptionalArg operator_def "T" D.DT_FLOAT = r.dt)
    (hmode : GetOptionalArg operator_def "mode" D.NORMAL = mode) :
    reg.CreateOperation D context r.device_type mode
      = .ok [OpRegistryBase.opKey D r.op_type r.device_type r.dt] (r.creator context) := by
  have hf := RegisterAll_mem D calls reg0 reg _ hreg r hr
  have := CreateOperation_found D reg context operator_def r.device_type mode r.creator hdef
    hmode (by rw [hkind, htype]; exact hf)
  rw [this, hkind, htype]

/-- C1 at the example: after the three example registrations the "Conv" node requested on
device 2 is built by the factory registered for ("Conv", 2, 1). -/
theorem C1_register_create_round_trip_witness :
    exampleRegistry.CreateOperation exampleDecls exampleContext 2 1
      = .ok ["Conv2T_1"]
          (some { operator_def_ := exampleDef, inputs_ := [], outputs_ := [] }) :=
  C1_register_create_round_trip exampleDecls OpRegistryBase.empty exampleRegistry exampleCalls
    { op_type := "Conv", device_type := 2, dt := 1, creator := baseCreator }
    exampleContext exampleDef 1 (by rfl) (by simp [exampleCalls]) rfl rfl (by decide) (by decide)

/-! ## C2 -/

/-- The kinds that have a record after a successful sequence of registrations are those that
had one before and those of the sequence. -/
theorem RegisterAll_registered (D : Decls) (calls : List Registration) :
    ∀ (self reg : OpRegistryBase) (st : MaceStatus),
      RegisterAll D self calls = .ok reg st →
      ∀ K : String, StdMap.find? reg.registry_ K ≠ none ↔
        (StdMap.find? self.registry_ K ≠ none ∨ ∃ c ∈ calls, c.op_type = K) := by
  induction calls with
  | nil =>
    intro self reg st h K
    simp only [RegisterAll] at h
    injection h with h1 _
    subst h1
    simp
  | cons r rest ih =>
    intro self reg st h K
    obtain ⟨mid, st', h1, h2⟩ := RegisterAll_cons_ok D self reg r rest st h
    rw [ih mid reg st h2 K, (Register_ok_inv D self mid _ _ _ _ st' h1).2 K]
    by_cases hk : r.op_type = K
    · simp [hk]
    · simp [hk]

/-- The keys in the record of a kind after a successful sequence of registrations are those
that were there before and those of the registrations of that kind in the sequence. -/
theorem RegisterAll_creators (D : Decls) (calls : List Registration) :
    ∀ (self reg : OpRegistryBase) (st : MaceStatus),
      RegisterAll D self calls = .ok reg st →
      ∀ K key : String, StdMap.find? (reg.recordOf K).creators key ≠ none →
        (StdMap.find? (self.recordOf K).creators key ≠ none ∨
          ∃ c ∈ calls, c.op_type = K ∧ OpRegistryBase.opKey D K c.device_type c.dt = key) := by
  induction calls with
  | nil =>
    intro self reg st h K key hk
    simp only [RegisterAll] at h
    injection h with h1 _
    subst h1
    exact Or.inl hk
  | cons r rest ih =>
    intro self reg st h K key hkey
    obtain ⟨mid, st', h1, h2⟩ := RegisterAll_cons_ok D self reg r rest st h
    rcases ih mid reg st h2 K key hkey with hmid | ⟨c, hc, hcK, hck⟩
    · rw [recordOf_Register D self mid _ _ _ _ st' h1 K] at hmid
      by_cases hk : r.op_type = K
      · simp only [hk, if_true, StdMap.find?_set] at hmid
        by_cases hkk : OpRegistryBase.opKey D K r.device_type r.dt = key
        · exact Or.inr ⟨r, List.mem_cons_self _ _, hk, hkk⟩
        · subst hk
          simp only [hkk, if_false] at hmid
          exact Or.inl hmid
      · simp only [hk, if_false] at hmid
        exact Or.inl hmid
    · exact Or.inr ⟨c, List.mem_cons_of_mem _ hc, hcK, hck⟩

theorem recordOf_empty (K : String) :
    OpRegistryBase.empty.recordOf K = OpRegistrationInfo.new := rfl

/-- For a kind that has no record `CreateOperation` stops at the check of line 181. -/
theorem CreateOperation_notRegistered (D : Decls) (reg : OpRegistryBase)
    (context : OpConstructContext) (operator_def : OperatorDef) (d : DeviceType)
    (mode : NetMode) (hdef : context.operator_def_ = some operator_def)
    (hmode : GetOptionalArg operator_def "mode" D.NORMAL = mode)
    (hK : StdMap.find? reg.registry_ operator_def.type = none) :
    reg.CreateOperation D context d mode = .fatal [] (.notRegistered operator_def.type) := by
  unfold OpRegistryBase.CreateOperation
  have hc : StdMap.count reg.registry_ operator_def.type = 0 := (StdMap.count_eq_zero _ _).2 hK
  simp [hdef, hmode, hc]

/-- For a kind whose record has no factory under the key of the request `CreateOperation`
stops at line 189. -/
theorem CreateOperation_keyNotRegistered (D : Decls) (reg : OpRegistryBase)
    (context : OpConstructContext) (operator_def : OperatorDef) (d : DeviceType)
    (mode : NetMode) (hdef : context.operator_def_ = some operator_def)
    (hmode : GetOptionalArg operator_def "mode" D.NORMAL = mode)
    (hK : StdMap.find? reg.registry_ operator_def.type ≠ none)
    (hkey : StdMap.find? (reg.recordOf operator_def.type).creators
      (OpRegistryBase.opKey D operator_def.type d (GetOptionalArg operator_def "T" D.DT_FLOAT))
        = none) :
    reg.CreateOperation D context d mode
      = .fatal [] (.keyNotRegistered (OpRegistryBase.opKey D operator_def.type d
          (GetOptionalArg operator_def "T" D.DT_FLOAT))) := by
  unfold OpRegistryBase.CreateOperation
  unfold OpRegistryBase.recordOf at hkey
  cases hfind : StdMap.find? reg.registry_ operator_def.type with
  | none => exact absurd hfind hK
  | some info =>
    simp only [hfind, Option.getD_some] at hkey
    have hc : StdMap.count reg.registry_ operator_def.type ≠ 0 := by
      rw [Ne, StdMap.count_eq_zero, hfind]; simp
    have hc2 : StdMap.count info.creators (OpRegistryBase.opKey D operator_def.type d
        (GetOptionalArg operator_def "T" D.DT_FLOAT)) = 0 := (StdMap.count_eq_zero _ _).2 hkey
    simp [hdef, hmode, hc, hfind, hc2]

/-- C3 (mode filtering): for every registry, whether or not the node's kind or its variant is
registered, and every node descriptor whose declared execution mode differs from the requested
mode, `CreateOperation` returns the null pointer: no fatal check fires and no factory is
invoked. -/
theorem C3_mode_filtering (D : Decls) (reg : OpRegistryBase) (context : OpConstructContext)
    (operator_def : OperatorDef) (d : DeviceType) (mode : NetMode)
    (hdef : context.operator_def_ = some operator_def)
    (hmode : GetOptionalArg operator_def "mode" D.NORMAL ≠ mode) :
    reg.CreateOperation D context d mode = .ok [] none := by
  unfold OpRegistryBase.CreateOperation
  simp [hdef, hmode]

/-- C3 at an example: a node of mode 2 requested in mode 1 on the empty registry, in which
its kind is not registered, gives the null pointer. -/
theorem C3_mode_filtering_witness :
    OpRegistryBase.empty.CreateOperation exampleDecls
      (OpConstructContext.ofDef { exampleDef with arg := [{ name := "mode", i := 2 }] }
        emptyWorkspace { allocator := 0 }) 0 1
      = .ok [] none :=
  C3_mode_filtering exampleDecls OpRegistryBase.empty _
    { exampleDef with arg := [{ name := "mode", i := 2 }] } 0 1 rfl (by decide)

/-! ## C4 -/

/-- C4 (uniqueness): once `Register(K, d, t, f)` has succeeded, then after any further
successful registrations a call `Register(K, d, t, g)` with the same kind, device and numeric
type stops at the fatal check "Key already registered", for any factories `f` and `g`. -/
theorem C4_duplicate_registration (D : Decls) (reg0 reg1 reg2 : OpRegistryBase) (K : String)
    (d : DeviceType) (t : DataType) (f g : OpCreator) (later : List Registration)
    (hfirst : reg0.Register D K d t f = .ok reg1 .MACE_SUCCESS)
    (hlater : RegisterAll D reg1 later = .ok reg2 .MACE_SUCCESS) :
    ∃ s, reg2.Register D K d t g
      = .fatal s (.keyAlreadyRegistered (OpRegistryBase.opKey D K d t)) := by
  have h1 : StdMap.find? (reg1.recordOf K).creators (OpRegistryBase.opKey D K d t) = some f := by
    rw [recordOf_Register D reg0 reg1 K d t f _ hfirst K]
    simp [StdMap.find?_set]
  have h2 := RegisterAll_preserved D later reg1 reg2 _ hlater K _ f h1
  obtain ⟨s, hs, _⟩ := Register_fatal D reg2 K d t g (by rw [h2]; simp)
  exact ⟨s, hs⟩

/-- C4 at an example: registering ("Conv", 0, 1) on the empty registry, then ("Pool", 0, 1),
then ("Conv", 0, 1) again with another factory. -/
theorem C4_duplicate_registration_witness :
    ∃ s, (RegisterAll exampleDecls
        (OpRegistryBase.empty.Register exampleDecls "Conv" 0 1 nullCreator).state
        [{ op_type := "Pool", device_type := 0, dt := 1, creator := nullCreator }]).state.Register
          exampleDecls "Conv" 0 1 baseCreator
      = .fatal s (.keyAlreadyRegistered "Conv0T_1") :=
  C4_duplicate_registration exampleDecls OpRegistryBase.empty _ _ "Conv" 0 1 nullCreator
    baseCreator [{ op_type := "Pool", device_type := 0, dt := 1, creator := nullCreator }]
    (by rfl) (by rfl)

/-! ## C5 and C6 -/

/-- The devices in the record of a kind after a successful sequence of registrations are those
that were there before and those of the registrations of that kind in the sequence. -/
theorem RegisterAll_devices (D : Decls) (calls : List Registration) :
    ∀ (self reg : OpRegistryBase) (st : MaceStatus),
      RegisterAll D self calls = .ok reg st →
      ∀ (K : String) (d : DeviceType), d ∈ (reg.recordOf K).devices ↔
        (d ∈ (self.recordOf K).devices ∨
          ∃ c ∈ calls, c.op_type = K ∧ c.device_type = d) := by
  induction calls with
  | nil =>
    intro self reg st h K d
    simp only [RegisterAll] at h
    injection h with h1 _
    subst h1
    simp
  | cons r rest ih =>
    intro self reg st h K d
    obtain ⟨mid, st', h1, h2⟩ := RegisterAll_cons_ok D self reg r rest st h
    rw [ih mid reg st h2 K d, recordOf_Register D self mid _ _ _ _ st' h1 K]
    by_cases hk : r.op_type = K
    · subst hk
      simp only [if_true, Finset.mem_insert, List.mem_cons, exists_eq_or_imp, true_and]
      constructor
      · rintro ((h | h) | h)
        · exact Or.inr (Or.inl h.symm)
        · exact Or.inl h
        · exact Or.inr (Or.inr h)
      · rintro (h | h | h)
        · exact Or.inl (Or.inr h)
        · exact Or.inl (Or.inl h.symm)
        · exact Or.inr h
    · simp [hk]

/-- The method `AvailableDevices` as a case distinction on the record of the kind. -/
theorem AvailableDevices_eq (reg : OpRegistryBase) (K : String) :
    reg.AvailableDevices K =
      match StdMap.find? reg.registry_ K with
      | none => .fatal reg (.notRegistered K)
      | some info => .ok reg info.devices := by
  unfold OpRegistryBase.AvailableDevices
  cases h : StdMap.find? reg.registry_ K with
  | none => simp [(StdMap.count_eq_zero _ _).2 h]
  | some info =>
    have hc : StdMap.count reg.registry_ K ≠ 0 := by
      rw [Ne, StdMap.count_eq_zero, h]; simp
    simp [hc]

/-- C5 (device coverage): after a sequence of successful `Register` calls on the empty registry,
for every kind `K` that occurs in the sequence `AvailableDevices(K)` returns a set whose
members are exactly the devices `d` of the calls `Register(K, d, _, _)` of the sequence; a device
registered only for another kind is not in it. -/
theorem C5_device_coverage (D : Decls) (calls : List Registration) (reg : OpRegistryBase)
    (K : String)
    (hreg : RegisterAll D OpRegistryBase.empty calls = .ok reg .MACE_SUCCESS)
    (hK : ∃ c ∈ calls, c.op_type = K) :
    ∃ ds : Finset DeviceType, reg.AvailableDevices K = .ok reg ds ∧
      ∀ d, d ∈ ds ↔ ∃ c ∈ calls, c.op_type = K ∧ c.device_type = d := by
  have hR := (RegisterAll_registered D calls _ reg _ hreg K).2 (Or.inr hK)
  have hD := RegisterAll_devices D calls _ reg _ hreg K
  rw [AvailableDevices_eq]
  cases hfind : StdMap.find? reg.registry_ K with
  | none => exact absurd hfind hR
  | some info =>
    refine ⟨info.devices, rfl, ?_⟩
    intro d
    have := hD d
    simp only [OpRegistryBase.recordOf, hfind, Option.getD_some] at this
    rw [this]
    simp [OpRegistryBase.empty, StdMap.find?, OpRegistrationInfo.new]

/-- C5 at the example: after registering "Conv" for the devices 0 and 2 and "Pool" for
device 0, the devices of "Conv" are exactly 0 and 2. -/
theorem C5_device_coverage_witness :
    ∃ ds : Finset DeviceType, exampleRegistry.AvailableDevices "Conv" = .ok exampleRegistry ds ∧
      ∀ d, d ∈ ds ↔ ∃ c ∈ exampleCalls, c.op_type = "Conv" ∧ c.device_type = d :=
  C5_device_coverage exampleDecls exampleCalls exampleRegistry "Conv" (by rfl)
    ⟨{ op_type := "Conv", device_type := 0, dt := 1, creator := nullCreator },
      by simp [exampleCalls], rfl⟩

/-- C6: for the registry after a sequence of successful `Register` calls on the empty registry,
`AvailableDevices(K)` ends in a fatal check if and only if no call of the sequence was for the
kind `K`, and the check is then "operation is not registered"; for a kind of the sequence it
returns a value and the registry is unchanged. -/
theorem C6_available_devices_fatal_iff (D : Decls) (calls : List Registration)
    (reg : OpRegistryBase) (K : String)
    (hreg : RegisterAll D OpRegistryBase.empty calls = .ok reg .MACE_SUCCESS) :
    ((reg.AvailableDevices K).isFatal = true ↔ ∀ c ∈ calls, c.op_type ≠ K) ∧
    ((∀ c ∈ calls, c.op_type ≠ K) →
      reg.AvailableDevices K = .fatal reg (.notRegistered K)) ∧
    ((∃ c ∈ calls, c.op_type = K) → ∃ ds, reg.AvailableDevices K = .ok reg ds) := by
  have hR := RegisterAll_registered D calls _ reg _ hreg K
  have hempty : StdMap.find? OpRegistryBase.empty.registry_ K = none := rfl
  rw [AvailableDevices_eq]
  cases hfind : StdMap.find? reg.registry_ K with
  | none =>
    have hno : ∀ c ∈ calls, c.op_type ≠ K := by
      intro c hc hcK
      have := hR.2 (Or.inr ⟨c, hc, hcK⟩)
      exact this hfind
    refine ⟨by simp [Outcome.isFatal]; exact hno, fun _ => rfl, ?_⟩
    rintro ⟨c, hc, hcK⟩
    exact absurd hcK (hno c hc)
  | some info =>
    have hsome : ∃ c ∈ calls, c.op_type = K := by
      rcases hR.1 (by rw [hfind]; simp) with h0 | h
      · exact absurd hempty h0
      · exact h
    refine ⟨?_, ?_, fun _ => ⟨info.devices, rfl⟩⟩
    · simp only [Outcome.isFatal, Bool.false_eq_true, false_iff]
      intro hno
      obtain ⟨c, hc, hcK⟩ := hsome
      exact hno c hc hcK
    · intro hno
      obtain ⟨c, hc, hcK⟩ := hsome
      exact absurd hcK (hno c hc)

/-- C6 at the example: "Gemm" is not among the example registrations, so `AvailableDevices`
stops at the fatal check with the registry unchanged. -/
theorem C6_available_devices_fatal_iff_witness :
    exampleRegistry.AvailableDevices "Gemm" = .fatal exampleRegistry (.notRegistered "Gemm") :=
  (C6_available_devices_fatal_iff exampleDecls exampleCalls exampleRegistry "Gemm"
    (by rfl)).2.1 (by simp [exampleCalls])

/-! ## C7 -/

/-- C7 (key determinism and sensitivity): the key that `OpKeyBuilder` builds for (kind `K`,
device `d`, numeric type `t`) is the string `K`, the decimal number of `d`, "T_" and
`DataTypeToString(t)`, hence a function of (K, d, t) only; changing the kind alone changes the
key, changing the device alone changes the key, and changing the numeric type alone changes the
key when `DataTypeToString` maps distinct types to distinct strings. -/
theorem C7_key_determinism_sensitivity (D : Decls) :
    (∀ (K : String) (d : DeviceType) (t : DataType),
      OpRegistryBase.opKey D K d t = K ++ streamInt d ++ "T_" ++ D.DataTypeToString t) ∧
    (∀ (K K' : String) (d : DeviceType) (t : DataType), K ≠ K' →
      OpRegistryBase.opKey D K d t ≠ OpRegistryBase.opKey D K' d t) ∧
    (∀ (K : String) (d d' : DeviceType) (t : DataType), d ≠ d' →
      OpRegistryBase.opKey D K d t ≠ OpRegistryBase.opKey D K d' t) ∧
    (Function.Injective D.DataTypeToString →
      ∀ (K : String) (d : DeviceType) (t t' : DataType), t ≠ t' →
        OpRegistryBase.opKey D K d t ≠ OpRegistryBase.opKey D K d t') := by
  refine ⟨?_, ?_, ?_, ?_⟩
  · intro K d t
    apply String.ext
    rw [opKey_data]
    simp [String.data_append]
  · intro K K' d t hne h
    exact hne (opKey_kind D K K' d t h)
  · intro K d d' t hne h
    exact hne (opKey_inj D K d d' t t h).1
  · intro hinj K d t t' hne h
    exact hne (hinj (opKey_inj D K d d t t' h).2)

/-- C7 at an example: the keys of ("Conv", 0, 1) and ("Conv", 0, 2) differ when a numeric type
is printed as its number. -/
theorem C7_key_determinism_sensitivity_witness :
    OpRegistryBase.opKey exampleDecls "Conv" 0 1 ≠ OpRegistryBase.opKey exampleDecls "Conv" 0 2 :=
  (C7_key_determinism_sensitivity exampleDecls).2.2.2 streamInt_injective "Conv" 0 1 2
    (by decide)

/-! ## The body of the output loop of Init -/

theorem StdMap.set_set {V : Type} (m : StdMap V) (k : String) (v v' : V) :
    StdMap.set (StdMap.set m k v) k v' = StdMap.set m k v' := by
  induction m with
  | nil => simp [StdMap.set]
  | cons e m ih =>
    obtain ⟨k0, v0⟩ := e
    by_cases h0 : k0 = k
    · simp [StdMap.set, h0]
    · simp [StdMap.set, h0, ih]

theorem HasTensor_iff (ws : Workspace) (name : String) :
    ws.HasTensor name = true ↔ StdMap.find? ws.tensor_map_ name ≠ none := by
  unfold Workspace.HasTensor
  cases StdMap.find? ws.tensor_map_ name <;> simp

/-- The body of the output loop in three cases: the name is in the store (bind to it), the name
is not in the store and the check on the type list passes (create), or the check fails. -/
theorem InitOutput_eq (D : Decls) (device : Device) (i : Nat) (self : Operation)
    (ws : Workspace) :
    Operation.InitOutput D device i self ws =
      if ws.HasTensor (self.operator_def_.output.getD i "") then
        .ok ({ self with outputs_ :=
                self.outputs_ ++ [some (self.operator_def_.output.getD i "")] }, ws) ()
      else if self.operator_def_.output_type.length = 0 ∨
          self.operator_def_.output.length = self.operator_def_.output_type.length then
        .ok ({ self with outputs_ :=
                self.outputs_ ++ [some (self.operator_def_.output.getD i "")] },
             { tensor_map_ := StdMap.set ws.tensor_map_ (self.operator_def_.output.getD i "")
                 (newTensor D device self.operator_def_ i ws),
               created := ws.created + 1 }) ()
      else
        .fatal (self, ws) (.outputTypeSize self.operator_def_.output.length
          self.operator_def_.output_type.length) := by
  unfold Operation.InitOutput
  simp only []
  generalize self.operator_def_.output.getD i "" = name
  by_cases hhas : ws.HasTensor name = true
  · simp only [hhas, if_true, Workspace.GetTensor]
  · rw [if_neg hhas, if_neg hhas]
    by_cases hchk : self.operator_def_.output_type.length = 0 ∨
        self.operator_def_.output.length = self.operator_def_.output_type.length
    · rw [if_pos hchk, if_pos hchk]
      simp only [Workspace.CreateTensor]
      by_cases hshape : i < self.operator_def_.output_shape.length
      · simp [hshape, Workspace.SetShapeConfigured, Workspace.GetTensor, Workspace.HasTensor,
          StdMap.find?_set, StdMap.set_set, newTensor, outputType]
      · simp [hshape, newTensor, outputType]
    · rw [if_neg hchk, if_neg hchk]

/-- The body of the output loop leaves every tensor that is in the store as it is, and it
leaves the descriptor and the bound inputs of the operation as they are. -/
theorem InitOutput_preserves (D : Decls) (device : Device) (i : Nat) (self : Operation)
    (ws : Workspace) :
    (∀ name t, StdMap.find? ws.tensor_map_ name = some t →
      StdMap.find? (Operation.InitOutput D device i self ws).state.2.tensor_map_ name = some t) ∧
    (Operation.InitOutput D device i self ws).state.1.operator_def_ = self.operator_def_ ∧
    (Operation.InitOutput D device i self ws).state.1.inputs_ = self.inputs_ := by
  rw [InitOutput_eq]
  by_cases hhas : ws.HasTensor (self.operator_def_.output.getD i "") = true
  · rw [if_pos hhas]
    exact ⟨fun _ _ h => h, rfl, rfl⟩
  · rw [if_neg hhas]
    by_cases hchk : self.operator_def_.output_type.length = 0 ∨
        self.operator_def_.output.length = self.operator_def_.output_type.length
    · rw [if_pos hchk]
      refine ⟨?_, rfl, rfl⟩
      intro name t h
      simp only [Outcome.state, StdMap.find?_set]
      have hne : ¬ self.operator_def_.output.getD i "" = name := by
        intro heq
        apply hhas
        rw [HasTensor_iff, heq, h]
        simp
      rw [if_neg hne, h]
    · rw [if_neg hchk]
      exact ⟨fun _ _ h => h, rfl, rfl⟩

/-- The output loop leaves every tensor that is in the store as it is, whether the loop ends or
stops at a fatal check, and it leaves the descriptor and the bound inputs as they are. -/
theorem InitOutputs_preserves (D : Decls) (device : Device) (n : Nat) :
    ∀ (i : Nat) (self : Operation) (ws : Workspace),
      (∀ name t, StdMap.find? ws.tensor_map_ name = some t →
        StdMap.find? (Operation.InitOutputs D device n i self ws).state.2.tensor_map_ name
          = some t) ∧
      (Operation.InitOutputs D device n i self ws).state.1.operator_def_ = self.operator_def_ ∧
      (Operation.InitOutputs D device n i self ws).state.1.inputs_ = self.inputs_ := by
  induction n with
  | zero => intro i self ws; exact ⟨fun _ _ h => h, rfl, rfl⟩
  | succ n ih =>
    intro i self ws
    have hstep := InitOutput_preserves D device i self ws
    simp only [Operation.InitOutputs]
    cases hout : Operation.InitOutput D device i self ws with
    | fatal s c =>
      rw [hout] at hstep
      exact hstep
    | ok s u =>
      obtain ⟨self1, ws1⟩ := s
      rw [hout] at hstep
      simp only [Outcome.state] at hstep
      have hrest := ih (i + 1) self1 ws1
      refine ⟨fun name t h => hrest.1 name t (hstep.1 name t h), ?_, ?_⟩
      · rw [hrest.2.1, hstep.2.1]
      · rw [hrest.2.2, hstep.2.2]

/-- The input loop never changes the store, the descriptor or the bound outputs. -/
theorem InitInputs_state (ws : Workspace) (inputs : List String) :
    ∀ self : Operation,
      (Operation.InitInputs ws inputs self).state.2 = ws ∧
      (Operation.InitInputs ws inputs self).state.1.operator_def_ = self.operator_def_ ∧
      (Operation.InitInputs ws inputs self).state.1.outputs_ = self.outputs_ := by
  induction inputs with
  | nil => intro self; exact ⟨rfl, rfl, rfl⟩
  | cons input_str rest ih =>
    intro self
    simp only [Operation.InitInputs]
    by_cases h : ws.GetTensor input_str ≠ none
    · rw [if_pos h]
      exact ih _
    · rw [if_neg h]
      exact ⟨rfl, rfl, rfl⟩

theorem GetTensor_eq (ws : Workspace) (name : String) :
    ws.GetTensor name = if ws.HasTensor name = true then some name else none := rfl

/-- When every remaining input is in the store, the input loop binds them in order. -/
theorem InitInputs_ok (ws : Workspace) (inputs : List String) :
    ∀ self : Operation, (∀ name ∈ inputs, ws.HasTensor name = true) →
      Operation.InitInputs ws inputs self
        = .ok ({ self with inputs_ := self.inputs_ ++ inputs.map some }, ws) () := by
  induction inputs with
  | nil => intro self _; simp [Operation.InitInputs]
  | cons input_str rest ih =>
    intro self h
    have h1 := h input_str (List.mem_cons_self _ _)
    simp only [Operation.InitInputs, GetTensor_eq, h1, if_true]
    rw [if_pos (by simp), ih _ (fun name hn => h name (List.mem_cons_of_mem _ hn))]
    simp

/-- When some remaining input is not in the store, the input loop stops at the check of line 42
for an input that is not in the store; the store and the bound outputs are as before. -/
theorem InitInputs_fatal (ws : Workspace) (inputs : List String) :
    ∀ self : Operation, (∃ name ∈ inputs, ws.HasTensor name = false) →
      ∃ (self1 : Operation) (input_str : String),
        Operation.InitInputs ws inputs self
          = .fatal (self1, ws) (.nonExistingInput self.operator_def_.type input_str) ∧
        input_str ∈ inputs ∧ ws.HasTensor input_str = false ∧
        self1.outputs_ = self.outputs_ := by
  induction inputs with
  | nil => intro self h; obtain ⟨_, hn, _⟩ := h; cases hn
  | cons input_str rest ih =>
    intro self h
    simp only [Operation.InitInputs, GetTensor_eq]
    by_cases h1 : ws.HasTensor input_str = true
    · have hrest : ∃ name ∈ rest, ws.HasTensor name = false := by
        obtain ⟨name, hn, hf⟩ := h
        rcases List.mem_cons.mp hn with rfl | hn
        · rw [h1] at hf; cases hf
        · exact ⟨name, hn, hf⟩
      obtain ⟨self1, bad, heq, hmem, hbad, hout⟩ := ih
        { self with inputs_ := self.inputs_ ++ [some input_str] } hrest
      simp only [h1, if_true]
      rw [if_pos (by simp)]
      exact ⟨self1, bad, heq, List.mem_cons_of_mem _ hmem, hbad, hout⟩
    · simp only [h1, if_false]
      rw [if_neg (by simp)]
      exact ⟨self, input_str, rfl, List.mem_cons_self _ _, by simpa using h1, rfl⟩

/-! ## C8 -/

/-- C8 (missing input): for every store and every node descriptor that declares an input name
that is not in the store, `Init` stops at the fatal check "Encountered a non-existing input
tensor", for an input that is not in the store; at that point the store is identical to the
store before `Init` (no tensor was created) and no output has been bound. -/
theorem C8_missing_input (D : Decls) (self : Operation) (context : OpInitContext)
    (h : ∃ name ∈ self.operator_def_.input, context.ws_.HasTensor name = false) :
    ∃ (self1 : Operation) (input_str : String),
      self.Init D context
        = .fatal (self1, context.ws_) (.nonExistingInput self.operator_def_.type input_str) ∧
      input_str ∈ self.operator_def_.input ∧ context.ws_.HasTensor input_str = false ∧
      self1.outputs_ = self.outputs_ := by
  obtain ⟨self1, bad, heq, hmem, hbad, hout⟩ :=
    InitInputs_fatal context.ws_ self.operator_def_.input self h
  refine ⟨self1, bad, ?_, hmem, hbad, hout⟩
  simp only [Operation.Init, heq]

/-! ## Successful runs of the output loop -/

theorem getD_eq_getElem (l : List String) (i : Nat) (h : i < l.length) : l.getD i "" = l[i] := by
  simp [List.getD, List.getElem?_eq_getElem h]

/-- When every declared output is in the store, or the type list is empty or as long as the
output list, the output loop ends and binds, in order, one pointer for each output that was
left, each being the pointer to the tensor stored under the name of the output. -/
theorem InitOutputs_ok (D : Decls) (device : Device) (n : Nat) :
    ∀ (i : Nat) (self : Operation) (ws : Workspace),
      i + n ≤ self.operator_def_.output.length →
      ((∀ name ∈ self.operator_def_.output, ws.HasTensor name = true) ∨
        self.operator_def_.output_type.length = 0 ∨
        self.operator_def_.output.length = self.operator_def_.output_type.length) →
      ∃ ws1, Operation.InitOutputs D device n i self ws
        = .ok ({ self with outputs_ :=
            self.outputs_ ++ ((self.operator_def_.output.drop i).take n).map some }, ws1) () := by
  induction n with
  | zero =>
    intro i self ws _ _
    exact ⟨ws, by simp [Operation.InitOutputs]⟩
  | succ n ih =>
    intro i self ws hlen hH
    have hi : i < self.operator_def_.output.length := by omega
    have hdrop : ((self.operator_def_.output.drop i).take (n + 1)).map some
        = some (self.operator_def_.output.getD i "") ::
          ((self.operator_def_.output.drop (i + 1)).take n).map some := by
      rw [List.drop_eq_getElem_cons hi, getD_eq_getElem _ _ hi]
      simp only [List.take_succ_cons, List.map_cons]
    simp only [Operation.InitOutputs]
    rw [InitOutput_eq, hdrop]
    by_cases hhas : ws.HasTensor (self.operator_def_.output.getD i "") = true
    · rw [if_pos hhas]
      obtain ⟨ws1, h1⟩ := ih (i + 1)
        { self with outputs_ := self.outputs_ ++ [some (self.operator_def_.output.getD i "")] }
        ws (by simpa using by omega) hH
      refine ⟨ws1, ?_⟩
      simp only [h1]
      simp
    · rw [if_neg hhas]
      have hchk : self.operator_def_.output_type.length = 0 ∨
          self.operator_def_.output.length = self.operator_def_.output_type.length := by
        rcases hH with hall | hchk
        · exfalso
          apply hhas
          apply hall
          rw [getD_eq_getElem _ _ hi]
          exact List.getElem_mem _
        · exact hchk
      rw [if_pos hchk]
      obtain ⟨ws1, h1⟩ := ih (i + 1)
        { self with outputs_ := self.outputs_ ++ [some (self.operator_def_.output.getD i "")] }
        { tensor_map_ := StdMap.set ws.tensor_map_ (self.operator_def_.output.getD i "")
            (newTensor D device self.operator_def_ i ws),
          created := ws.created + 1 }
        (by simpa using by omega) (Or.inr hchk)
      refine ⟨ws1, ?_⟩
      simp only [h1]
      simp

/-- When every declared input is in the store and every declared output is in the store, or the
type list is empty or as long as the output list, `Init` returns; the operation then holds one
pointer for each declared input and one for each declared output, in the order of declaration,
each being the pointer to the tensor stored under that name. -/
theorem Init_ok (D : Decls) (self : Operation) (context : OpInitContext)
    (hin : ∀ name ∈ self.operator_def_.input, context.ws_.HasTensor name = true)
    (hH : (∀ name ∈ self.operator_def_.output, context.ws_.HasTensor name = true) ∨
      self.operator_def_.output_type.length = 0 ∨
      self.operator_def_.output.length = self.operator_def_.output_type.length) :
    ∃ ws1, self.Init D context
      = .ok ({ self with
                inputs_ := self.inputs_ ++ self.operator_def_.input.map some,
                outputs_ := self.outputs_ ++ self.operator_def_.output.map some }, ws1)
          .MACE_SUCCESS := by
  obtain ⟨ws1, h1⟩ := InitOutputs_ok D context.device_ self.operator_def_.output.length 0
    { self with inputs_ := self.inputs_ ++ self.operator_def_.input.map some } context.ws_
    (by simp) hH
  refine ⟨ws1, ?_⟩
  simp only [Operation.Init, InitInputs_ok context.ws_ _ self hin, h1]
  simp

/-- In every outcome of `Init` (return or fatal check) a tensor that was in the store is still
stored under its name, unchanged. -/
theorem Init_preserves (D : Decls) (self : Operation) (context : OpInitContext) (name : String)
    (t : Tensor) (h : StdMap.find? context.ws_.tensor_map_ name = some t) :
    StdMap.find? (self.Init D context).state.2.tensor_map_ name = some t := by
  have hin := InitInputs_state context.ws_ self.operator_def_.input self
  simp only [Operation.Init]
  cases h1 : Operation.InitInputs context.ws_ self.operator_def_.input self with
  | fatal s c =>
    rw [h1] at hin
    simp only [Outcome.state] at hin ⊢
    rw [hin.1]
    exact h
  | ok s u =>
    obtain ⟨self1, ws1⟩ := s
    cases u
    rw [h1] at hin
    simp only [Outcome.state] at hin
    have hout := (InitOutputs_preserves D context.device_ self1.operator_def_.output.length 0
      self1 ws1).1 name t (by rw [hin.1]; exact h)
    dsimp only
    cases h2 : Operation.InitOutputs D context.device_ self1.operator_def_.output.length 0
        self1 ws1 with
    | fatal s2 c2 =>
      rw [h2] at hout
      exact hout
    | ok s2 u2 =>
      cases u2
      rw [h2] at hout
      exact hout

/-- C8 at an example: a node with the inputs "in0" and "in1" on a store that holds "in0"
only. -/
theorem C8_missing_input_witness :
    ∃ (self1 : Operation) (input_str : String),
      (operationOf defTwoInputs).Init exampleDecls { ws_ := storeIn0, device_ := { allocator := 0 } }
        = .fatal (self1, storeIn0) (.nonExistingInput "Conv" input_str) ∧
      input_str ∈ ["in0", "in1"] ∧ storeIn0.HasTensor input_str = false ∧
      self1.outputs_ = [] :=
  C8_missing_input exampleDecls (operationOf defTwoInputs)
    { ws_ := storeIn0, device_ := { allocator := 0 } }
    ⟨"in1", by simp [operationOf, defTwoInputs], by decide⟩

/-! ## C9 -/

/-- C9 as stated fails: on a store that holds "in0" and "out0", the node with the outputs "x"
and "out0" and a type list of one entry has all its inputs and the pre-existing output "out0"
in the store, yet `Init` stops at the check on the type list when it reaches the absent output
"x", so the position of "out0" is never bound. -/
theorem C9_bind_existing_output_counterexample :
    StdMap.find? storeIn0Out0.tensor_map_ "out0" = some { exampleTensor 2 with id := 1 } ∧
    defShortTypeList.output[1]? = some "out0" ∧
    (∀ name ∈ defShortTypeList.input, storeIn0Out0.HasTensor name = true) ∧
    (operationOf defShortTypeList).Init exampleDecls
        { ws_ := storeIn0Out0, device_ := { allocator := 0 } }
      = .fatal ({ operator_def_ := defShortTypeList, inputs_ := [some "in0"], outputs_ := [] },
          storeIn0Out0) (.outputTypeSize 2 1) := by
  decide

/-- C9, amended (output binding, pre-existing): let the store contain a tensor `t` under the name
of the declared output at position `i`.  In every outcome of `Init` (return or fatal check) the
store still holds `t` itself under that name: the same object with its data type, whatever the
declared output type or the "T" argument, and no tensor was created for that name.  If moreover
all declared inputs are in the store and the check on the type list cannot fail (all declared
outputs are in the store, or the type list is empty or as long as the output list), `Init`
returns and output position `i` is bound to the pointer to that tensor. -/
theorem C9_bind_existing_output (D : Decls) (self : Operation) (context : OpInitContext)
    (i : Nat) (name : String) (t : Tensor)
    (hname : self.operator_def_.output[i]? = some name)
    (hstore : StdMap.find? context.ws_.tensor_map_ name = some t) :
    StdMap.find? (self.Init D context).state.2.tensor_map_ name = some t ∧
    ((∀ input_str ∈ self.operator_def_.input, context.ws_.HasTensor input_str = true) →
      ((∀ output_str ∈ self.operator_def_.output, context.ws_.HasTensor output_str = true) ∨
        self.operator_def_.output_type.length = 0 ∨
        self.operator_def_.output.length = self.operator_def_.output_type.length) →
      ∃ (self1 : Operation) (ws1 : Workspace),
        self.Init D context = .ok (self1, ws1) .MACE_SUCCESS ∧
        self1.outputs_ = self.outputs_ ++ self.operator_def_.output.map some ∧
        self1.outputs_[self.outputs_.length + i]? = some (some name) ∧
        ws1.deref (some name) = some t) := by
  have hpres := Init_preserves D self context name t hstore
  refine ⟨hpres, ?_⟩
  intro hin hH
  obtain ⟨ws1, hok⟩ := Init_ok D self context hin hH
  refine ⟨_, ws1, hok, rfl, ?_, ?_⟩
  · simp [List.getElem?_append_right, hname]
  · rw [hok] at hpres
    exact hpres

/-- C9 amended, at an example: the node with output "out0", declared output type 4 and
"T" = 3 on a store that holds "out0" with type 2: `Init` returns, binds position 0 to "out0",
and the tensor under "out0" is the one that was there, of type 2. -/
theorem C9_bind_existing_output_witness :
    ∃ (self1 : Operation) (ws1 : Workspace),
      (operationOf defOut0).Init exampleDecls
          { ws_ := storeIn0Out0, device_ := { allocator := 0 } }
        = .ok (self1, ws1) .MACE_SUCCESS ∧
      self1.outputs_ = [] ++ defOut0.output.map some ∧
      self1.outputs_[0 + 0]? = some (some "out0") ∧
      ws1.deref (some "out0") = some { exampleTensor 2 with id := 1 } :=
  (C9_bind_existing_output exampleDecls (operationOf defOut0)
    { ws_ := storeIn0Out0, device_ := { allocator := 0 } } 0 "out0"
    { exampleTensor 2 with id := 1 } (by decide) (by decide)).2
    (by decide) (Or.inl (by decide))

/-! ## C10 -/

/-- When the declared output names are pairwise distinct, the outputs that are left are not in
the store and the type list is as long as the output list, then after the output loop the tensor
stored under each of these outputs has the type that the type list gives at its position. -/
theorem InitOutputs_fresh (D : Decls) (device : Device) (operator_def : OperatorDef)
    (hnodup : operator_def.output.Nodup)
    (hlen : operator_def.output.length = operator_def.output_type.length) (n : Nat) :
    ∀ (i : Nat) (self : Operation) (ws : Workspace),
      self.operator_def_ = operator_def →
      (∀ (j : Nat) (hj : j < operator_def.output.length), i ≤ j → j < i + n →
        ws.HasTensor operator_def.output[j] = false) →
      ∀ (j : Nat) (hj : j < operator_def.output.length)
        (hj2 : j < operator_def.output_type.length), i ≤ j → j < i + n →
        ∃ t, StdMap.find? (Operation.InitOutputs D device n i self ws).state.2.tensor_map_
            operator_def.output[j] = some t ∧
          t.dtype = operator_def.output_type[j] := by
  induction n with
  | zero => intro i self ws _ _ j _ _ h1 h2; omega
  | succ n ih =>
    intro i self ws hdef habs j hj hj2 hij hjn
    have hi : i < operator_def.output.length := by omega
    have hi2 : i < operator_def.output_type.length := by omega
    have hstep : Operation.InitOutput D device i self ws
        = .ok ({ self with outputs_ := self.outputs_ ++ [some operator_def.output[i]] },
               { tensor_map_ := StdMap.set ws.tensor_map_ operator_def.output[i]
                   (newTensor D device operator_def i ws),
                 created := ws.created + 1 }) () := by
      rw [InitOutput_eq, hdef, getD_eq_getElem _ _ hi,
        if_neg (by rw [habs i hi (le_refl i) (by omega)]; simp), if_pos (Or.inr hlen)]
    simp only [Operation.InitOutputs, hstep]
    by_cases hji : j = i
    · subst hji
      refine ⟨newTensor D device operator_def j ws, ?_, ?_⟩
      · apply (InitOutputs_preserves D device n (j + 1) _ _).1
        simp [StdMap.find?_set]
      · simp [newTensor, outputType, hi2]
    · refine ih (i + 1)
        { self with outputs_ := self.outputs_ ++ [some operator_def.output[i]] }
        { tensor_map_ := StdMap.set ws.tensor_map_ operator_def.output[i]
            (newTensor D device operator_def i ws),
          created := ws.created + 1 } hdef ?_ j hj hj2 (by omega) (by omega)
      intro k hk hik hkn
      have hne : ¬ operator_def.output[i] = operator_def.output[k] := by
        intro heq
        have := (List.Nodup.getElem_inj_iff hnodup).1 heq
        omega
      have hk0 := habs k hk (by omega) (by omega)
      cases hb : Workspace.HasTensor
          { tensor_map_ := StdMap.set ws.tensor_map_ operator_def.output[i]
              (newTensor D device operator_def i ws),
            created := ws.created + 1 } operator_def.output[k] with
      | false => rfl
      | true =>
        rw [HasTensor_iff] at hb
        simp only [StdMap.find?_set, if_neg hne] at hb
        have : ws.HasTensor operator_def.output[k] = true := (HasTensor_iff _ _).2 hb
        rw [hk0] at this
        cases this

/-- C10 as stated fails: the node that declares the output "a" twice with the type list 4, 1
has its input in the store, its output names absent from the store and a type list as long as
its output list; `Init` creates "a" with type 4 at position 0 and binds position 1 to that
same tensor, whose type is 4 and not the entry 1 of the type list. -/
theorem C10_fresh_outputs_explicit_types_counterexample :
    (∀ name ∈ defRepeatedOutput.input, storeIn0.HasTensor name = true) ∧
    (∀ name ∈ defRepeatedOutput.output, storeIn0.HasTensor name = false) ∧
    defRepeatedOutput.output_type.length = defRepeatedOutput.output.length ∧
    ∃ ws1, (operationOf defRepeatedOutput).Init exampleDecls
          { ws_ := storeIn0, device_ := { allocator := 0 } }
        = .ok ({ operator_def_ := defRepeatedOutput, inputs_ := [some "in0"],
                 outputs_ := [some "a", some "a"] }, ws1) .MACE_SUCCESS ∧
      (ws1.deref (some "a")).map (fun t => t.dtype) = some 4 ∧
      defRepeatedOutput.output_type[1]? = some 1 := by
  refine ⟨by decide, by decide, by decide, _, rfl, by decide, by decide⟩

/-- C10, amended (output binding, fresh with explicit types): for every node whose declared
inputs are all in the store, whose declared output names are pairwise distinct and all absent
from the store, and whose type list has exactly as many entries as there are outputs, `Init`
returns, binds every output position `i` to the pointer to the tensor stored under the `i`-th
output name, and that tensor has the data type of the `i`-th entry of the type list, whatever
the "T" argument of the node is. -/
theorem C10_fresh_outputs_explicit_types (D : Decls) (self : Operation)
    (context : OpInitContext)
    (hin : ∀ name ∈ self.operator_def_.input, context.ws_.HasTensor name = true)
    (habs : ∀ name ∈ self.operator_def_.output, context.ws_.HasTensor name = false)
    (hnodup : self.operator_def_.output.Nodup)
    (hlen : self.operator_def_.output_type.length = self.operator_def_.output.length) :
    ∃ (self1 : Operation) (ws1 : Workspace),
      self.Init D context = .ok (self1, ws1) .MACE_SUCCESS ∧
      self1.outputs_ = self.outputs_ ++ self.operator_def_.output.map some ∧
      ∀ (i : Nat) (hi : i < self.operator_def_.output.length)
        (hi2 : i < self.operator_def_.output_type.length),
        self1.outputs_[self.outputs_.length + i]? = some (some self.operator_def_.output[i]) ∧
        ∃ t, ws1.deref (some self.operator_def_.output[i]) = some t ∧
          t.dtype = self.operator_def_.output_type[i] := by
  obtain ⟨ws1, hok⟩ := Init_ok D self context hin (Or.inr (Or.inr hlen.symm))
  refine ⟨_, ws1, hok, rfl, ?_⟩
  intro i hi hi2
  constructor
  · simp [List.getElem?_append_right, List.getElem?_eq_getElem hi]
  · have hloop := InitOutputs_fresh D context.device_ self.operator_def_ hnodup hlen.symm
      self.operator_def_.output.length 0
      { self with inputs_ := self.inputs_ ++ self.operator_def_.input.map some } context.ws_
      rfl (fun j hj _ _ => habs _ (List.getElem_mem _)) i hi hi2 (Nat.zero_le _)
      (by omega)
    have hinit : self.Init D context
        = match Operation.InitOutputs D context.device_ self.operator_def_.output.length 0
            { self with inputs_ := self.inputs_ ++ self.operator_def_.input.map some }
            context.ws_ with
          | .fatal s c => .fatal s c
          | .ok s () => .ok s .MACE_SUCCESS := by
      simp only [Operation.Init, InitInputs_ok context.ws_ _ self hin]
    rw [hinit] at hok
    cases hrun : Operation.InitOutputs D context.device_ self.operator_def_.output.length 0
        { self with inputs_ := self.inputs_ ++ self.operator_def_.input.map some }
        context.ws_ with
    | fatal s c =>
      rw [hrun] at hok
      cases hok
    | ok s u =>
      cases u
      rw [hrun] at hok hloop
      simp only [Outcome.ok.injEq, and_true] at hok
      rw [hok] at hloop
      exact hloop

/-- C10 amended, at an example: the node with the outputs "a" and "b", the type list 4, 1 and
"T" = 3 on a store that holds neither: the tensors bound at the positions 0 and 1 have the
types 4 and 1. -/
theorem C10_fresh_outputs_explicit_types_witness :
    ∃ (self1 : Operation) (ws1 : Workspace),
      (operationOf defTwoOutputs).Init exampleDecls
          { ws_ := storeIn0, device_ := { allocator := 0 } }
        = .ok (self1, ws1) .MACE_SUCCESS ∧
      self1.outputs_ = [some "a", some "b"] ∧
      (∃ t, ws1.deref (some "a") = some t ∧ t.dtype = 4) ∧
      (∃ t, ws1.deref (some "b") = some t ∧ t.dtype = 1) :=
  match C10_fresh_outputs_explicit_types exampleDecls (operationOf defTwoOutputs)
    { ws_ := storeIn0, device_ := { allocator := 0 } }
    (by decide) (by decide) (by decide) (by decide) with
  | ⟨self1, ws1, hok, hout, h⟩ =>
    ⟨self1, ws1, hok, hout, (h 0 (by decide) (by decide)).2, (h 1 (by decide) (by decide)).2⟩

/-! ## C11 -/

/-- When every declared input is in the store, `Init` is the output loop run after the inputs
have been bound. -/
theorem Init_eq_of_inputs (D : Decls) (self : Operation) (context : OpInitContext)
    (hin : ∀ name ∈ self.operator_def_.input, context.ws_.HasTensor name = true) :
    self.Init D context
      = match Operation.InitOutputs D context.device_ self.operator_def_.output.length 0
          { self with inputs_ := self.inputs_ ++ self.operator_def_.input.map some }
          context.ws_ with
        | .fatal s c => .fatal s c
        | .ok s () => .ok s .MACE_SUCCESS := by
  simp only [Operation.Init, InitInputs_ok context.ws_ _ self hin]

/-- When the type list is neither empty nor as long as the output list and one of the outputs
that are left is not in the store, the output loop stops at the check of line 53, at the first
such output; no tensor has been created by then. -/
theorem InitOutputs_mismatch (D : Decls) (device : Device) (operator_def : OperatorDef)
    (hchk : ¬ (operator_def.output_type.length = 0 ∨
      operator_def.output.length = operator_def.output_type.length)) (n : Nat) :
    ∀ (i : Nat) (self : Operation) (ws : Workspace),
      self.operator_def_ = operator_def →
      (∃ j, i ≤ j ∧ j < i + n ∧ ws.HasTensor (operator_def.output.getD j "") = false) →
      ∃ self1 : Operation, Operation.InitOutputs D device n i self ws
        = .fatal (self1, ws) (.outputTypeSize operator_def.output.length
            operator_def.output_type.length) := by
  induction n with
  | zero =>
    intro i self ws _ h
    obtain ⟨j, h1, h2, _⟩ := h
    omega
  | succ n ih =>
    intro i self ws hdef h
    simp only [Operation.InitOutputs]
    rw [InitOutput_eq, hdef]
    by_cases hhas : ws.HasTensor (operator_def.output.getD i "") = true
    · rw [if_pos hhas]
      have hrest : ∃ j, i + 1 ≤ j ∧ j < i + 1 + n ∧
          ws.HasTensor (operator_def.output.getD j "") = false := by
        obtain ⟨j, h1, h2, h3⟩ := h
        by_cases hji : j = i
        · subst hji
          rw [hhas] at h3
          cases h3
        · exact ⟨j, by omega, by omega, h3⟩
      exact ih (i + 1)
        { operator_def_ := operator_def, inputs_ := self.inputs_,
          outputs_ := self.outputs_ ++ [some (operator_def.output.getD i "")] }
        ws rfl hrest
    · rw [if_neg hhas, if_neg hchk]
      exact ⟨self, rfl⟩

theorem exists_getD_of_mem (l : List String) (name : String) (h : name ∈ l) :
    ∃ j, j < l.length ∧ l.getD j "" = name := by
  obtain ⟨j, hj, heq⟩ := List.getElem_of_mem h
  exact ⟨j, hj, by rw [getD_eq_getElem _ _ hj, heq]⟩

/-- C11 as stated fails: the node with the three outputs "o0", "o1", "o2" and a type list of
one entry, on a store that already holds its input and its three outputs, is initialised
successfully; the check on the type list is made only when a tensor has to be created. -/
theorem C11_output_type_list_mismatch_counterexample :
    defThreeOutputs.output_type.length ≠ 0 ∧
    defThreeOutputs.output_type.length ≠ defThreeOutputs.output.length ∧
    (operationOf defThreeOutputs).Init exampleDecls
        { ws_ := storeThreeOutputs, device_ := { allocator := 0 } }
      = .ok ({ operator_def_ := defThreeOutputs, inputs_ := [some "in0"],
               outputs_ := [some "o0", some "o1", some "o2"] }, storeThreeOutputs)
          .MACE_SUCCESS := by
  decide

/-- C11, amended (output type list mismatch): for every node descriptor whose type list is
non-empty with a length that differs from the number of declared outputs, and which declares
at least one output name that is not in the store, `Init` ends in a fatal check; when all
declared inputs are in the store it is the check on the type list (line 53), and the store at
that point is the store before `Init`. -/
theorem C11_output_type_list_mismatch (D : Decls) (self : Operation) (context : OpInitContext)
    (hne : self.operator_def_.output_type.length ≠ 0)
    (hlen : self.operator_def_.output_type.length ≠ self.operator_def_.output.length)
    (habs : ∃ name ∈ self.operator_def_.output, context.ws_.HasTensor name = false) :
    (self.Init D context).isFatal = true ∧
    ((∀ name ∈ self.operator_def_.input, context.ws_.HasTensor name = true) →
      ∃ self1 : Operation, self.Init D context
        = .fatal (self1, context.ws_) (.outputTypeSize self.operator_def_.output.length
            self.operator_def_.output_type.length)) := by
  have hchk : ¬ (self.operator_def_.output_type.length = 0 ∨
      self.operator_def_.output.length = self.operator_def_.output_type.length) := by
    intro h
    rcases h with h | h
    · exact hne h
    · exact hlen h.symm
  have hfatal : (∀ name ∈ self.operator_def_.input, context.ws_.HasTensor name = true) →
      ∃ self1 : Operation, self.Init D context
        = .fatal (self1, context.ws_) (.outputTypeSize self.operator_def_.output.length
            self.operator_def_.output_type.length) := by
    intro hin
    obtain ⟨name, hmem, hno⟩ := habs
    obtain ⟨j, hj, hjn⟩ := exists_getD_of_mem _ _ hmem
    obtain ⟨self1, h1⟩ := InitOutputs_mismatch D context.device_ self.operator_def_ hchk
      self.operator_def_.output.length 0
      { self with inputs_ := self.inputs_ ++ self.operator_def_.input.map some } context.ws_
      rfl ⟨j, Nat.zero_le _, by omega, by rw [hjn]; exact hno⟩
    refine ⟨self1, ?_⟩
    rw [Init_eq_of_inputs D self context hin, h1]
  refine ⟨?_, hfatal⟩
  by_cases hin : ∀ name ∈ self.operator_def_.input, context.ws_.HasTensor name = true
  · obtain ⟨self1, h1⟩ := hfatal hin
    rw [h1]
    rfl
  · have hmiss : ∃ name ∈ self.operator_def_.input, context.ws_.HasTensor name = false := by
      by_contra hcon
      apply hin
      intro name hmem
      cases hb : context.ws_.HasTensor name with
      | true => rfl
      | false => exact absurd ⟨name, hmem, hb⟩ hcon
    obtain ⟨self1, bad, heq, _⟩ := InitInputs_fatal context.ws_ self.operator_def_.input self hmiss
    simp only [Operation.Init, heq]
    rfl

/-- C11 amended, at the example of the claim: three outputs with a type list of one entry, on a
store that holds the input only. -/
theorem C11_output_type_list_mismatch_witness :
    ∃ self1 : Operation, (operationOf defThreeOutputs).Init exampleDecls
        { ws_ := storeIn0, device_ := { allocator := 0 } }
      = .fatal (self1, storeIn0) (.outputTypeSize 3 1) :=
  (C11_output_type_list_mismatch exampleDecls (operationOf defThreeOutputs)
    { ws_ := storeIn0, device_ := { allocator := 0 } } (by decide) (by decide)
    ⟨"o0", by decide, by decide⟩).2 (by decide)

/-! ## The tensors that the output loop creates -/

/-- The vector built by lines 71 to 75 is the list of the declared dims. -/
theorem shapeConfigured_eq (shape : OutputShape) : shapeConfigured shape = shape.dims := by
  unfold shapeConfigured
  apply List.ext_getElem
  · simp
  · intro k h1 h2
    simp [List.getD, List.getElem?_eq_getElem h2]

/-- Every tensor that is in the store after the output loop (or at the fatal check that stops
it) under a name that was not in the store before was created by the loop, at the first of the
positions left that declares this name. -/
theorem InitOutputs_new (D : Decls) (device : Device) (operator_def : OperatorDef) (n : Nat) :
    ∀ (i : Nat) (self : Operation) (ws : Workspace),
      self.operator_def_ = operator_def →
      ∀ (name : String) (t : Tensor), StdMap.find? ws.tensor_map_ name = none →
        StdMap.find? (Operation.InitOutputs D device n i self ws).state.2.tensor_map_ name
          = some t →
        ∃ (j : Nat) (w : Workspace), i ≤ j ∧ j < i + n ∧
          operator_def.output.getD j "" = name ∧
          (∀ k, i ≤ k → k < j → operator_def.output.getD k "" ≠ name) ∧
          t = newTensor D device operator_def j w := by
  induction n with
  | zero =>
    intro i self ws _ name t hnone hfin
    simp only [Operation.InitOutputs, Outcome.state] at hfin
    rw [hnone] at hfin
    cases hfin
  | succ n ih =>
    intro i self ws hdef name t hnone hfin
    simp only [Operation.InitOutputs] at hfin
    rw [InitOutput_eq, hdef] at hfin
    by_cases hhas : ws.HasTensor (operator_def.output.getD i "") = true
    · rw [if_pos hhas] at hfin
      have hne : operator_def.output.getD i "" ≠ name := by
        intro heq
        rw [heq, HasTensor_iff] at hhas
        exact hhas hnone
      obtain ⟨j, w, h1, h2, h3, h4, h5⟩ := ih (i + 1)
        { operator_def_ := operator_def, inputs_ := self.inputs_,
          outputs_ := self.outputs_ ++ [some (operator_def.output.getD i "")] }
        ws rfl name t hnone hfin
      refine ⟨j, w, by omega, by omega, h3, ?_, h5⟩
      intro k hk1 hk2
      by_cases hki : k = i
      · rw [hki]; exact hne
      · exact h4 k (by omega) hk2
    · rw [if_neg hhas] at hfin
      by_cases hchk : operator_def.output_type.length = 0 ∨
          operator_def.output.length = operator_def.output_type.length
      · rw [if_pos hchk] at hfin
        by_cases hn : operator_def.output.getD i "" = name
        · have hpres := (InitOutputs_preserves D device n (i + 1)
            { operator_def_ := operator_def, inputs_ := self.inputs_,
              outputs_ := self.outputs_ ++ [some (operator_def.output.getD i "")] }
            { tensor_map_ := StdMap.set ws.tensor_map_ (operator_def.output.getD i "")
                (newTensor D device operator_def i ws),
              created := ws.created + 1 }).1 name (newTensor D device operator_def i ws)
            (by simp only [StdMap.find?_set, if_pos hn])
          have heq : some t = some (newTensor D device operator_def i ws) := by
            rw [← hfin, ← hpres]
          exact ⟨i, ws, le_refl i, by omega, hn, fun k hk1 hk2 => by omega,
            Option.some.inj heq⟩
        · obtain ⟨j, w, h1, h2, h3, h4, h5⟩ := ih (i + 1)
            { operator_def_ := operator_def, inputs_ := self.inputs_,
              outputs_ := self.outputs_ ++ [some (operator_def.output.getD i "")] }
            { tensor_map_ := StdMap.set ws.tensor_map_ (operator_def.output.getD i "")
                (newTensor D device operator_def i ws),
              created := ws.created + 1 } rfl name t
            (by simp only [StdMap.find?_set, if_neg hn]; exact hnone) hfin
          refine ⟨j, w, by omega, by omega, h3, ?_, h5⟩
          intro k hk1 hk2
          by_cases hki : k = i
          · rw [hki]; exact hn
          · exact h4 k (by omega) hk2
      · rw [if_neg hchk] at hfin
        simp only [Outcome.state] at hfin
        rw [hnone] at hfin
        cases hfin

/-- After a successful run of the output loop the names in the store are those that were in
it before and those of the outputs that the loop went through. -/
theorem InitOutputs_names (D : Decls) (device : Device) (operator_def : OperatorDef) (n : Nat) :
    ∀ (i : Nat) (self self1 : Operation) (ws ws1 : Workspace),
      self.operator_def_ = operator_def →
      Operation.InitOutputs D device n i self ws = .ok (self1, ws1) () →
      ∀ name : String, StdMap.find? ws1.tensor_map_ name ≠ none ↔
        (StdMap.find? ws.tensor_map_ name ≠ none ∨
          ∃ j, i ≤ j ∧ j < i + n ∧ operator_def.output.getD j "" = name) := by
  induction n with
  | zero =>
    intro i self self1 ws ws1 _ hok name
    simp only [Operation.InitOutputs, Outcome.ok.injEq, Prod.mk.injEq, and_true] at hok
    rw [← hok.2]
    constructor
    · exact Or.inl
    · rintro (h | ⟨j, h1, h2, _⟩)
      · exact h
      · omega
  | succ n ih =>
    intro i self self1 ws ws1 hdef hok name
    simp only [Operation.InitOutputs] at hok
    rw [InitOutput_eq, hdef] at hok
    by_cases hhas : ws.HasTensor (operator_def.output.getD i "") = true
    · rw [if_pos hhas] at hok
      rw [ih (i + 1) _ self1 ws ws1 rfl hok name]
      constructor
      · rintro (h | ⟨j, h1, h2, h3⟩)
        · exact Or.inl h
        · exact Or.inr ⟨j, by omega, by omega, h3⟩
      · rintro (h | ⟨j, h1, h2, h3⟩)
        · exact Or.inl h
        · by_cases hji : j = i
          · left
            rw [← h3, hji]
            exact (HasTensor_iff _ _).1 hhas
          · exact Or.inr ⟨j, by omega, by omega, h3⟩
    · rw [if_neg hhas] at hok
      by_cases hchk : operator_def.output_type.length = 0 ∨
          operator_def.output.length = operator_def.output_type.length
      · rw [if_pos hchk] at hok
        rw [ih (i + 1) _ self1 _ ws1 rfl hok name]
        simp only [StdMap.find?_set]
        constructor
        · rintro (h | ⟨j, h1, h2, h3⟩)
          · by_cases hn : operator_def.output.getD i "" = name
            · exact Or.inr ⟨i, le_refl i, by omega, hn⟩
            · rw [if_neg hn] at h
              exact Or.inl h
          · exact Or.inr ⟨j, by omega, by omega, h3⟩
        · rintro (h | ⟨j, h1, h2, h3⟩)
          · left
            by_cases hn : operator_def.output.getD i "" = name
            · rw [if_pos hn]; simp
            · rw [if_neg hn]; exact h
          · by_cases hji : j = i
            · left
              rw [← h3, hji, if_pos rfl]
              simp
            · exact Or.inr ⟨j, by omega, by omega, h3⟩
      · rw [if_neg hchk] at hok
        cases hok

/-! ## Successful runs of Init -/

/-- When `Init` returns, every declared input was in the store, and every declared output was in
the store or the type list is empty or as long as the output list. -/
theorem Init_ok_cond (D : Decls) (self : Operation) (context : OpInitContext)
    (h : (self.Init D context).isOk = true) :
    (∀ name ∈ self.operator_def_.input, context.ws_.HasTensor name = true) ∧
    ((∀ name ∈ self.operator_def_.output, context.ws_.HasTensor name = true) ∨
      self.operator_def_.output_type.length = 0 ∨
      self.operator_def_.output.length = self.operator_def_.output_type.length) := by
  have hin : ∀ name ∈ self.operator_def_.input, context.ws_.HasTensor name = true := by
    intro name hmem
    cases hb : context.ws_.HasTensor name with
    | true => rfl
    | false =>
      obtain ⟨self1, bad, heq, _⟩ := InitInputs_fatal context.ws_ self.operator_def_.input self
        ⟨name, hmem, hb⟩
      simp only [Operation.Init, heq, Outcome.isOk] at h
      cases h
  refine ⟨hin, ?_⟩
  by_contra hcon
  rw [not_or] at hcon
  obtain ⟨hsome, hchk⟩ := hcon
  have habs : ∃ name ∈ self.operator_def_.output, context.ws_.HasTensor name = false := by
    by_contra hno
    apply hsome
    intro name hmem
    cases hb : context.ws_.HasTensor name with
    | true => rfl
    | false => exact absurd ⟨name, hmem, hb⟩ hno
  obtain ⟨name, hmem, hno⟩ := habs
  obtain ⟨j, hj, hjn⟩ := exists_getD_of_mem _ _ hmem
  obtain ⟨self1, h1⟩ := InitOutputs_mismatch D context.device_ self.operator_def_ hchk
    self.operator_def_.output.length 0
    { self with inputs_ := self.inputs_ ++ self.operator_def_.input.map some } context.ws_
    rfl ⟨j, Nat.zero_le _, by omega, by rw [hjn]; exact hno⟩
  rw [Init_eq_of_inputs D self context hin, h1] at h
  cases h

/-- What a successful `Init` says: the inputs were in the store, the operation holds the
pointers to the declared inputs and outputs after those it held, and the output loop ran to its
end from the store of the context. -/
theorem Init_ok_inv (D : Decls) (self self1 : Operation) (context : OpInitContext)
    (ws1 : Workspace) (st : MaceStatus) (h : self.Init D context = .ok (self1, ws1) st) :
    (∀ name ∈ self.operator_def_.input, context.ws_.HasTensor name = true) ∧
    self1 = { self with
              inputs_ := self.inputs_ ++ self.operator_def_.input.map some,
              outputs_ := self.outputs_ ++ self.operator_def_.output.map some } ∧
    Operation.InitOutputs D context.device_ self.operator_def_.output.length 0
        { self with inputs_ := self.inputs_ ++ self.operator_def_.input.map some }
        context.ws_ = .ok (self1, ws1) () := by
  have hcond := Init_ok_cond D self context (by rw [h]; rfl)
  obtain ⟨ws2, hok⟩ := Init_ok D self context hcond.1 hcond.2
  rw [hok] at h
  simp only [Outcome.ok.injEq, Prod.mk.injEq] at h
  refine ⟨hcond.1, h.1.1.symm, ?_⟩
  have heq := Init_eq_of_inputs D self context hcond.1
  rw [hok] at heq
  cases hrun : Operation.InitOutputs D context.device_ self.operator_def_.output.length 0
      { self with inputs_ := self.inputs_ ++ self.operator_def_.input.map some }
      context.ws_ with
  | fatal s c =>
    rw [hrun] at heq
    cases heq
  | ok s u =>
    cases u
    rw [hrun] at heq
    simp only [Outcome.ok.injEq, and_true] at heq
    rw [← heq, h.1.1, h.1.2]

/-- After a successful `Init` the names in the store are those that were in it before and the
declared output names. -/
theorem Init_names (D : Decls) (self self1 : Operation) (context : OpInitContext)
    (ws1 : Workspace) (st : MaceStatus) (h : self.Init D context = .ok (self1, ws1) st)
    (name : String) :
    StdMap.find? ws1.tensor_map_ name ≠ none ↔
      (StdMap.find? context.ws_.tensor_map_ name ≠ none ∨ name ∈ self.operator_def_.output) := by
  have hrun := (Init_ok_inv D self self1 context ws1 st h).2.2
  rw [InitOutputs_names D context.device_ self.operator_def_ _ 0
    { self with inputs_ := self.inputs_ ++ self.operator_def_.input.map some }
    self1 context.ws_ ws1 rfl hrun name]
  constructor
  · rintro (h1 | ⟨j, _, hj, hjn⟩)
    · exact Or.inl h1
    · right
      rw [← hjn, getD_eq_getElem _ _ (by omega)]
      exact List.getElem_mem _
  · rintro (h1 | hmem)
    · exact Or.inl h1
    · obtain ⟨j, hj, hjn⟩ := exists_getD_of_mem _ _ hmem
      exact Or.inr ⟨j, Nat.zero_le _, by omega, hjn⟩

/-- After a successful `Init` every tensor stored under a name that was not in the store before
was created at the first output position that declares this name. -/
theorem Init_new (D : Decls) (self self1 : Operation) (context : OpInitContext)
    (ws1 : Workspace) (st : MaceStatus) (h : self.Init D context = .ok (self1, ws1) st)
    (name : String) (t : Tensor)
    (hnone : StdMap.find? context.ws_.tensor_map_ name = none)
    (hfin : StdMap.find? ws1.tensor_map_ name = some t) :
    ∃ (j : Nat) (w : Workspace), j < self.operator_def_.output.length ∧
      self.operator_def_.output.getD j "" = name ∧
      (∀ k, k < j → self.operator_def_.output.getD k "" ≠ name) ∧
      t = newTensor D context.device_ self.operator_def_ j w := by
  have hrun := (Init_ok_inv D self self1 context ws1 st h).2.2
  obtain ⟨j, w, _, h2, h3, h4, h5⟩ := InitOutputs_new D context.device_ self.operator_def_
    self.operator_def_.output.length 0
    { self with inputs_ := self.inputs_ ++ self.operator_def_.input.map some } context.ws_
    rfl name t hnone (by rw [hrun]; exact hfin)
  exact ⟨j, w, by omega, h3, fun k hk => h4 k (Nat.zero_le _) hk, h5⟩

theorem GetOptionalArg_default (operator_def : OperatorDef) (arg_name : String)
    (default_value : Int) (h : ∀ a ∈ operator_def.arg, a.name ≠ arg_name) :
    GetOptionalArg operator_def arg_name default_value = default_value := by
  unfold GetOptionalArg
  have : operator_def.arg.find? (fun a => decide (a.name = arg_name)) = none := by
    rw [List.find?_eq_none]
    intro a ha
    simpa using h a ha
  rw [this]

/-! ## C12 -/

/-- C12 as stated fails: the node that declares the output "out0" with the shape 1, 2, 3, on a
store that already holds "out0" without a configured shape, is initialised successfully and
bound to that tensor, and the tensor still has no configured shape: line 76 is reached only for
a tensor that `Init` has just created. -/
theorem C12_configured_shape_counterexample :
    (operationOf defOut0Shape).Init exampleDecls
        { ws_ := storeIn0Out0, device_ := { allocator := 0 } }
      = .ok ({ operator_def_ := defOut0Shape, inputs_ := [some "in0"],
               outputs_ := [some "out0"] }, storeIn0Out0) .MACE_SUCCESS ∧
    (storeIn0Out0.deref (some "out0")).map (fun t => t.shape_configured) = some [] ∧
    defOut0Shape.output_shape.map (fun shape => shape.dims) = [[1, 2, 3]] := by
  decide

/-- C12, amended (configured-shape hint): for every successful `Init` and every output
position `i` at which the node declares an output shape and at which `Init` creates the tensor
(the output name is not in the store before `Init` and is not declared at an earlier output
position), the tensor bound at position `i` afterwards carries a configured shape equal to the
declared dims of output shape `i`, in the same order and with the same length. -/
theorem C12_configured_shape (D : Decls) (self self1 : Operation) (context : OpInitContext)
    (ws1 : Workspace) (i : Nat)
    (hok : self.Init D context = .ok (self1, ws1) .MACE_SUCCESS)
    (hi : i < self.operator_def_.output.length)
    (hs : i < self.operator_def_.output_shape.length)
    (habs : context.ws_.HasTensor self.operator_def_.output[i] = false)
    (hfirst : ∀ k, k < i → self.operator_def_.output.getD k "" ≠ self.operator_def_.output[i]) :
    self1.outputs_[self.outputs_.length + i]? = some (some self.operator_def_.output[i]) ∧
    ∃ t, ws1.deref (some self.operator_def_.output[i]) = some t ∧
      t.shape_configured = self.operator_def_.output_shape[i].dims := by
  obtain ⟨_, hself, _⟩ := Init_ok_inv D self self1 context ws1 _ hok
  constructor
  · rw [hself]
    simp [List.getElem?_append_right, List.getElem?_eq_getElem hi]
  · have hnone : StdMap.find? context.ws_.tensor_map_ self.operator_def_.output[i] = none := by
      by_contra hne
      rw [(HasTensor_iff _ _).2 hne] at habs
      cases habs
    have hsome := (Init_names D self self1 context ws1 _ hok self.operator_def_.output[i]).2
      (Or.inr (List.getElem_mem _))
    cases hfind : StdMap.find? ws1.tensor_map_ self.operator_def_.output[i] with
    | none => exact absurd hfind hsome
    | some t =>
      refine ⟨t, hfind, ?_⟩
      obtain ⟨j, w, hj, hjn, hjfirst, ht⟩ := Init_new D self self1 context ws1 _ hok _ t hnone
        hfind
      have hji : j = i := by
        rcases Nat.lt_trichotomy j i with hlt | heq | hgt
        · exact absurd hjn (hfirst j hlt)
        · exact heq
        · exact absurd (getD_eq_getElem _ _ hi) (hjfirst i hgt)
      subst hji
      rw [ht]
      simp [newTensor, hs, shapeConfigured_eq]

/-- C12 amended, at an example: the node that declares the output "out0" with the shape
1, 2, 3 on a store that does not hold "out0". -/
theorem C12_configured_shape_witness :
    ∃ t, ((operationOf defOut0Shape).Init exampleDecls
        { ws_ := storeIn0, device_ := { allocator := 0 } }).state.2.deref (some "out0") = some t ∧
      t.shape_configured = [1, 2, 3] :=
  (C12_configured_shape exampleDecls (operationOf defOut0Shape) _
    { ws_ := storeIn0, device_ := { allocator := 0 } } _ 0 (by rfl) (by decide) (by decide)
    (by decide) (by intro k hk; omega)).2

/-! ## C15 -/

/-- C15 (output type fallback): for every successful `Init` of a node whose type list is empty,
every tensor that `Init` creates (a tensor stored afterwards under a name that was not in the
store before) has the data type given by the "T" argument of the node, which is `DT_FLOAT` when
the node has no "T" argument; and for every declared output that was not in the store, the
tensor bound at its position has this data type. -/
theorem C15_output_type_fallback (D : Decls) (self self1 : Operation) (context : OpInitContext)
    (ws1 : Workspace)
    (hok : self.Init D context = .ok (self1, ws1) .MACE_SUCCESS)
    (htype : self.operator_def_.output_type = []) :
    (∀ (name : String) (t : Tensor), StdMap.find? context.ws_.tensor_map_ name = none →
      StdMap.find? ws1.tensor_map_ name = some t →
      t.dtype = GetOptionalArg self.operator_def_ "T" D.DT_FLOAT) ∧
    (∀ (i : Nat) (hi : i < self.operator_def_.output.length),
      context.ws_.HasTensor self.operator_def_.output[i] = false →
      self1.outputs_[self.outputs_.length + i]? = some (some self.operator_def_.output[i]) ∧
      ∃ t, ws1.deref (some self.operator_def_.output[i]) = some t ∧
        t.dtype = GetOptionalArg self.operator_def_ "T" D.DT_FLOAT) ∧
    ((∀ a ∈ self.operator_def_.arg, a.name ≠ "T") →
      GetOptionalArg self.operator_def_ "T" D.DT_FLOAT = D.DT_FLOAT) := by
  have hcreated : ∀ (name : String) (t : Tensor),
      StdMap.find? context.ws_.tensor_map_ name = none →
      StdMap.find? ws1.tensor_map_ name = some t →
      t.dtype = GetOptionalArg self.operator_def_ "T" D.DT_FLOAT := by
    intro name t hnone hfin
    obtain ⟨j, w, _, _, _, ht⟩ := Init_new D self self1 context ws1 _ hok name t hnone hfin
    rw [ht]
    simp [newTensor, outputType, htype]
  refine ⟨hcreated, ?_, GetOptionalArg_default _ _ _⟩
  intro i hi habs
  obtain ⟨_, hself, _⟩ := Init_ok_inv D self self1 context ws1 _ hok
  constructor
  · rw [hself]
    simp [List.getElem?_append_right, List.getElem?_eq_getElem hi]
  · have hnone : StdMap.find? context.ws_.tensor_map_ self.operator_def_.output[i] = none := by
      by_contra hne
      rw [(HasTensor_iff _ _).2 hne] at habs
      cases habs
    have hsome := (Init_names D self self1 context ws1 _ hok self.operator_def_.output[i]).2
      (Or.inr (List.getElem_mem _))
    cases hfind : StdMap.find? ws1.tensor_map_ self.operator_def_.output[i] with
    | none => exact absurd hfind hsome
    | some t => exact ⟨t, hfind, hcreated _ t hnone hfind⟩

/-- C15 at an example: the node with the outputs "a" and "b", no type list and "T" = 3 on a
store that holds neither: the tensor created for "b" has type 3. -/
theorem C15_output_type_fallback_witness :
    ∃ t, ((operationOf defNoTypeList).Init exampleDecls
        { ws_ := storeIn0, device_ := { allocator := 0 } }).state.2.deref (some "b") = some t ∧
      t.dtype = 3 :=
  ((C15_output_type_fallback exampleDecls (operationOf defNoTypeList) _
    { ws_ := storeIn0, device_ := { allocator := 0 } } _ (by rfl) (by rfl)).2.1 1 (by decide)
    (by decide)).2

/-! ## C16 -/

/-- C16 (exact success condition of `Init`): `Init` returns, with the status `MACE_SUCCESS`, if
and only if every declared input name is in the store and, in addition, every declared output
name is already in the store, or the type list is empty, or its length equals the number of
outputs; otherwise it ends in a fatal check. -/
theorem C16_init_success_condition (D : Decls) (self : Operation) (context : OpInitContext) :
    ((∃ (self1 : Operation) (ws1 : Workspace),
        self.Init D context = .ok (self1, ws1) .MACE_SUCCESS) ↔
      ((∀ name ∈ self.operator_def_.input, context.ws_.HasTensor name = true) ∧
        ((∀ name ∈ self.operator_def_.output, context.ws_.HasTensor name = true) ∨
          self.operator_def_.output_type.length = 0 ∨
          self.operator_def_.output.length = self.operator_def_.output_type.length))) ∧
    ((self.Init D context).isFatal = true ↔
      ¬ ((∀ name ∈ self.operator_def_.input, context.ws_.HasTensor name = true) ∧
        ((∀ name ∈ self.operator_def_.output, context.ws_.HasTensor name = true) ∨
          self.operator_def_.output_type.length = 0 ∨
          self.operator_def_.output.length = self.operator_def_.output_type.length))) := by
  have hiff : (∃ (self1 : Operation) (ws1 : Workspace),
        self.Init D context = .ok (self1, ws1) .MACE_SUCCESS) ↔
      ((∀ name ∈ self.operator_def_.input, context.ws_.HasTensor name = true) ∧
        ((∀ name ∈ self.operator_def_.output, context.ws_.HasTensor name = true) ∨
          self.operator_def_.output_type.length = 0 ∨
          self.operator_def_.output.length = self.operator_def_.output_type.length)) := by
    constructor
    · rintro ⟨self1, ws1, h⟩
      exact Init_ok_cond D self context (by rw [h]; rfl)
    · rintro ⟨hin, hH⟩
      obtain ⟨ws1, h⟩ := Init_ok D self context hin hH
      exact ⟨_, ws1, h⟩
  refine ⟨hiff, ?_⟩
  rw [← hiff]
  cases hrun : self.Init D context with
  | ok s st =>
    obtain ⟨self1, ws1⟩ := s
    cases st
    simp [Outcome.isFatal]
  | fatal s c =>
    simp [Outcome.isFatal]

/-- C16 at the example of the claim: a node with three outputs and a type list of one entry
whose outputs are all in the store is initialised successfully. -/
theorem C16_init_success_condition_witness :
    ∃ (self1 : Operation) (ws1 : Workspace),
      (operationOf defThreeOutputs).Init exampleDecls
          { ws_ := storeThreeOutputs, device_ := { allocator := 0 } }
        = .ok (self1, ws1) .MACE_SUCCESS :=
  (C16_init_success_condition exampleDecls (operationOf defThreeOutputs)
    { ws_ := storeThreeOutputs, device_ := { allocator := 0 } }).1.2
    ⟨by decide, Or.inl (by decide)⟩

/-! ## C19 -/

/-- C19 as stated fails for an operation that already holds bound tensors: a second `Init` of
the operation for the node with the input "in0" and the outputs "a" and "b" succeeds and leaves
it with two bound inputs for its one declared input and four bound outputs for its two declared
outputs, because lines 44, 51 and 67 append to `inputs_` and `outputs_`. -/
theorem C19_init_frame_counterexample :
    (operationOf defTwoOutputs).Init exampleDecls
        { ws_ := storeIn0, device_ := { allocator := 0 } }
      = .ok (operationTwoOutputsInitialised, storeAfterTwoOutputs) .MACE_SUCCESS ∧
    operationTwoOutputsInitialised.Init exampleDecls
        { ws_ := storeAfterTwoOutputs, device_ := { allocator := 0 } }
      = .ok ({ operator_def_ := defTwoOutputs, inputs_ := [some "in0", some "in0"],
               outputs_ := [some "a", some "b", some "a", some "b"] }, storeAfterTwoOutputs)
          .MACE_SUCCESS := by
  decide

/-- C19, amended (frame and shape of the result of `Init`): after every successful `Init` the
operation holds the pointers it held before `Init`, followed by exactly one bound input for each
declared input and one bound output for each declared output, in the order of declaration, so
that an operation that held none (as the constructor makes it) holds exactly these; a name is in
the store if and only if it was in the store before or is a declared output name; and every
tensor that was in the store before is still stored under the same name, unchanged (same object,
data type and configured shape). -/
theorem C19_init_frame (D : Decls) (self self1 : Operation) (context : OpInitContext)
    (ws1 : Workspace)
    (hok : self.Init D context = .ok (self1, ws1) .MACE_SUCCESS) :
    self1.operator_def_ = self.operator_def_ ∧
    self1.inputs_ = self.inputs_ ++ self.operator_def_.input.map some ∧
    self1.outputs_ = self.outputs_ ++ self.operator_def_.output.map some ∧
    (self.inputs_ = [] → self.outputs_ = [] →
      self1.inputs_ = self.operator_def_.input.map some ∧
      self1.outputs_ = self.operator_def_.output.map some) ∧
    (∀ name : String, ws1.HasTensor name = true ↔
      (context.ws_.HasTensor name = true ∨ name ∈ self.operator_def_.output)) ∧
    (∀ (name : String) (t : Tensor), StdMap.find? context.ws_.tensor_map_ name = some t →
      StdMap.find? ws1.tensor_map_ name = some t) := by
  obtain ⟨_, hself, _⟩ := Init_ok_inv D self self1 context ws1 _ hok
  refine ⟨by rw [hself], by rw [hself], by rw [hself], ?_, ?_, ?_⟩
  · intro h1 h2
    rw [hself]
    simp [h1, h2]
  · intro name
    rw [HasTensor_iff, HasTensor_iff]
    exact Init_names D self self1 context ws1 _ hok name
  · intro name t h
    have := Init_preserves D self context name t h
    rw [hok] at this
    exact this

/-- C19 amended, at an example: the node with the input "in0" and the outputs "a", "b" on a store
that holds "in0" only. -/
theorem C19_init_frame_witness :
    ((operationOf defTwoOutputs).Init exampleDecls
        { ws_ := storeIn0, device_ := { allocator := 0 } }).state.1.inputs_ = [some "in0"] ∧
    ((operationOf defTwoOutputs).Init exampleDecls
        { ws_ := storeIn0, device_ := { allocator := 0 } }).state.1.outputs_
      = [some "a", some "b"] :=
  (C19_init_frame exampleDecls (operationOf defTwoOutputs) _
    { ws_ := storeIn0, device_ := { allocator := 0 } } _ (by rfl)).2.2.2.1 rfl rfl

/-! ## C13 -/

/-- When the record of the kind holds the device and holds a factory under the key, `Register`
stops at the duplicate-key check and the registry at that point is the registry before the
call. -/
theorem Register_fatal_state (D : Decls) (self : OpRegistryBase) (K : String) (d : DeviceType)
    (t : DataType) (f : OpCreator) (info : OpRegistrationInfo)
    (hK : StdMap.find? self.registry_ K = some info) (hd : d ∈ info.devices)
    (hkey : StdMap.find? info.creators (OpRegistryBase.opKey D K d t) ≠ none) :
    self.Register D K d t f
      = .fatal self (.keyAlreadyRegistered (OpRegistryBase.opKey D K d t)) := by
  have hc : ¬ StdMap.count self.registry_ K = 0 := by
    rw [StdMap.count_eq_zero, hK]; simp
  have hc2 : ¬ StdMap.count info.creators (OpRegistryBase.opKey D K d t) = 0 := by
    rw [StdMap.count_eq_zero]; exact hkey
  have hadd : info.AddDevice d = info := by
    cases info
    simp only [OpRegistrationInfo.AddDevice] at hd ⊢
    rw [Finset.insert_eq_of_mem hd]
  unfold OpRegistryBase.Register
  simp only [hc, if_false, hK, hadd, StdMap.set_find _ _ _ hK, OpRegistrationInfo.Register, hc2]

/-- C13 (`Register` is atomic on failure): for a registry built from the empty registry by
successful `Register` calls, whenever `Register(K, d, t, f)` ends in a fatal check, the check is
the duplicate-key check and the registry at that point (the kinds, the device set and the
key-to-factory map of every kind) is identical to the registry before the call, although the
code adds the device to the record before it checks the key. -/
theorem C13_register_atomic_on_failure (D : Decls) (calls : List Registration)
    (reg s : OpRegistryBase) (K : String) (d : DeviceType) (t : DataType) (f : OpCreator)
    (c : Fatal)
    (hreg : RegisterAll D OpRegistryBase.empty calls = .ok reg .MACE_SUCCESS)
    (hfatal : reg.Register D K d t f = .fatal s c) :
    s = reg ∧ c = .keyAlreadyRegistered (OpRegistryBase.opKey D K d t) := by
  have hkey : StdMap.find? (reg.recordOf K).creators (OpRegistryBase.opKey D K d t) ≠ none := by
    intro hnone
    obtain ⟨reg1, h1, _⟩ := Register_ok D reg K d t f hnone
    rw [h1] at hfatal
    cases hfatal
  have hdev : d ∈ (reg.recordOf K).devices := by
    rcases RegisterAll_creators D calls _ reg _ hreg K _ hkey with h0 | ⟨c0, hc0, hcK, hck⟩
    · exact absurd rfl h0
    · have hd := (opKey_inj D K _ _ _ _ hck).1
      exact (RegisterAll_devices D calls _ reg _ hreg K d).2 (Or.inr ⟨c0, hc0, hcK, hd⟩)
  cases hK : StdMap.find? reg.registry_ K with
  | none =>
    simp [OpRegistryBase.recordOf, hK, OpRegistrationInfo.new, StdMap.find?] at hkey
  | some info =>
    simp only [OpRegistryBase.recordOf, hK, Option.getD_some] at hkey hdev
    rw [Register_fatal_state D reg K d t f info hK hdev hkey] at hfatal
    simp only [Outcome.fatal.injEq] at hfatal
    exact ⟨hfatal.1.symm, hfatal.2.symm⟩

/-- C13 at the example: registering ("Conv", 2, 1) again on the example registry. -/
theorem C13_register_atomic_on_failure_witness :
    (exampleRegistry.Register exampleDecls "Conv" 2 1 nullCreator).state = exampleRegistry :=
  (C13_register_atomic_on_failure exampleDecls exampleCalls exampleRegistry
    (exampleRegistry.Register exampleDecls "Conv" 2 1 nullCreator).state "Conv" 2 1 nullCreator
    (.keyAlreadyRegistered "Conv2T_1") (by rfl) (by rfl)).1

/-! ## C14 -/

/-- C14 (defaults of `CreateOperation`): for a node descriptor with no "mode" argument the
declared mode is `NORMAL`: with any registry it yields the null pointer for every requested mode
other than `NORMAL`, and requested in mode `NORMAL` it is constructed by the factory registered
for its kind, the requested device and its numeric type.  For a node descriptor with no "T"
argument the lookup key is the key of the numeric type `DT_FLOAT`, so the factory invoked is
the one registered for (kind, device, `DT_FLOAT`). -/
theorem C14_create_operation_defaults (D : Decls) (reg0 reg : OpRegistryBase)
    (calls : List Registration) (r : Registration) (context : OpConstructContext)
    (operator_def : OperatorDef)
    (hreg : RegisterAll D reg0 calls = .ok reg .MACE_SUCCESS)
    (hr : r ∈ calls)
    (hdef : context.operator_def_ = some operator_def)
    (hkind : operator_def.type = r.op_type) :
    ((∀ a ∈ operator_def.arg, a.name ≠ "mode") →
      (∀ (other : OpRegistryBase) (d : DeviceType) (mode : NetMode), mode ≠ D.NORMAL →
        other.CreateOperation D context d mode = .ok [] none) ∧
      (GetOptionalArg operator_def "T" D.DT_FLOAT = r.dt →
        reg.CreateOperation D context r.device_type D.NORMAL
          = .ok [OpRegistryBase.opKey D r.op_type r.device_type r.dt] (r.creator context))) ∧
    ((∀ a ∈ operator_def.arg, a.name ≠ "T") → r.dt = D.DT_FLOAT →
      reg.CreateOperation D context r.device_type (GetOptionalArg operator_def "mode" D.NORMAL)
        = .ok [OpRegistryBase.opKey D r.op_type r.device_type D.DT_FLOAT]
            (r.creator context)) := by
  have hf := RegisterAll_mem D calls reg0 reg _ hreg r hr
  constructor
  · intro hnomode
    have hm := GetOptionalArg_default operator_def "mode" D.NORMAL hnomode
    constructor
    · intro other d mode hne
      unfold OpRegistryBase.CreateOperation
      simp [hdef, hm, Ne.symm hne]
    · intro htype
      have := CreateOperation_found D reg context operator_def r.device_type D.NORMAL r.creator
        hdef hm (by rw [hkind, htype]; exact hf)
      rw [this, hkind, htype]
  · intro hnoT hdt
    have hT := GetOptionalArg_default operator_def "T" D.DT_FLOAT hnoT
    have := CreateOperation_found D reg context operator_def r.device_type
      (GetOptionalArg operator_def "mode" D.NORMAL) r.creator hdef rfl
      (by rw [hkind, hT, ← hdt]; exact hf)
    rw [this, hkind, hT]

/-- C14 at an example: the "Conv" node without arguments, requested in mode `NORMAL` on
device 2, is built by the factory registered for ("Conv", 2, `DT_FLOAT`). -/
theorem C14_create_operation_defaults_witness :
    exampleRegistry.CreateOperation exampleDecls
        (OpConstructContext.ofDef { exampleDef with arg := [] } emptyWorkspace { allocator := 0 })
        2 1
      = .ok ["Conv2T_1"]
          (some { operator_def_ := { exampleDef with arg := [] }, inputs_ := [],
                  outputs_ := [] }) :=
  (C14_create_operation_defaults exampleDecls OpRegistryBase.empty exampleRegistry exampleCalls
    { op_type := "Conv", device_type := 2, dt := 1, creator := baseCreator }
    (OpConstructContext.ofDef { exampleDef with arg := [] } emptyWorkspace { allocator := 0 })
    { exampleDef with arg := [] } (by rfl) (by simp [exampleCalls]) rfl rfl).2
    (by simp [exampleDef]) rfl

/-! ## C17 -/

/-- The outcome of `Register` is a return or the duplicate-key check, and it is the check
exactly when the record of the kind holds a factory under the key. -/
theorem Register_isFatal_iff (D : Decls) (self : OpRegistryBase) (K : String) (d : DeviceType)
    (t : DataType) (f : OpCreator) :
    (self.Register D K d t f).isFatal = true ↔
      StdMap.find? (self.recordOf K).creators (OpRegistryBase.opKey D K d t) ≠ none := by
  by_cases h : StdMap.find? (self.recordOf K).creators (OpRegistryBase.opKey D K d t) = none
  · obtain ⟨reg, h1, _⟩ := Register_ok D self K d t f h
    rw [h1]
    simp [Outcome.isFatal, h]
  · obtain ⟨reg, h1, _⟩ := Register_fatal D self K d t f h
    rw [h1]
    simp [Outcome.isFatal, h]

/-- The keys of ("A", device 12) and of ("A1", device 2) are the same string. -/
theorem opKey_collision (D : Decls) (t : DataType) :
    OpRegistryBase.opKey D "A" 12 t = OpRegistryBase.opKey D "A1" 2 t := by
  apply String.ext
  rw [opKey_data, opKey_data]
  rfl

/-- C17 (distinct variants never conflict): for a registry built from the empty registry by
successful `Register` calls, `Register(K, d, t, f)` ends in a fatal check only if a call of the
sequence had the same kind `K`, the same device `d` and a numeric type with the same
`DataTypeToString` as `t`; in particular it succeeds when no call of the sequence was for the
kind `K`, whatever keys the records of other kinds hold.  The kinds "A" with device 12 and "A1"
with device 2 have the same key string for every numeric type, and registering both
succeeds. -/
theorem C17_distinct_variants_never_conflict (D : Decls) (calls : List Registration)
    (reg : OpRegistryBase) (K : String) (d : DeviceType) (t : DataType) (f : OpCreator)
    (hreg : RegisterAll D OpRegistryBase.empty calls = .ok reg .MACE_SUCCESS) :
    ((reg.Register D K d t f).isFatal = true →
      ∃ c ∈ calls, c.op_type = K ∧ c.device_type = d ∧
        D.DataTypeToString c.dt = D.DataTypeToString t) ∧
    ((∀ c ∈ calls, c.op_type ≠ K) → (reg.Register D K d t f).isOk = true) ∧
    (∀ (t' : DataType) (g h : OpCreator),
      OpRegistryBase.opKey D "A" 12 t' = OpRegistryBase.opKey D "A1" 2 t' ∧
      (RegisterAll D OpRegistryBase.empty
        [{ op_type := "A", device_type := 12, dt := t', creator := g },
         { op_type := "A1", device_type := 2, dt := t', creator := h }]).isOk = true) := by
  have hfail : (reg.Register D K d t f).isFatal = true →
      ∃ c ∈ calls, c.op_type = K ∧ c.device_type = d ∧
        D.DataTypeToString c.dt = D.DataTypeToString t := by
    intro hfatal
    rw [Register_isFatal_iff] at hfatal
    rcases RegisterAll_creators D calls _ reg _ hreg K _ hfatal with h0 | ⟨c, hc, hcK, hck⟩
    · exact absurd rfl h0
    · have := opKey_inj D K _ _ _ _ hck
      exact ⟨c, hc, hcK, this.1, this.2⟩
  refine ⟨hfail, ?_, ?_⟩
  · intro hno
    cases hrun : reg.Register D K d t f with
    | ok s st => rfl
    | fatal s c =>
      obtain ⟨c0, hc0, hcK, _⟩ := hfail (by rw [hrun]; rfl)
      exact absurd hcK (hno c0 hc0)
  · intro t' g h
    refine ⟨opKey_collision D t', ?_⟩
    obtain ⟨reg1, h1, hl1⟩ := Register_ok D OpRegistryBase.empty "A" 12 t' g rfl
    have hrec : reg1.recordOf "A1" = OpRegistrationInfo.new := by
      rw [recordOf_Register D _ reg1 "A" 12 t' g _ h1 "A1", if_neg (by decide)]
      rfl
    obtain ⟨reg2, h2, _⟩ := Register_ok D reg1 "A1" 2 t' h (by rw [hrec]; rfl)
    simp only [RegisterAll, h1, h2]
    rfl

/-- C17 at the example: "Gemm" is not among the example registrations, so registering
("Gemm", 0, 1) on the example registry succeeds. -/
theorem C17_distinct_variants_never_conflict_witness :
    (exampleRegistry.Register exampleDecls "Gemm" 0 1 nullCreator).isOk = true :=
  (C17_distinct_variants_never_conflict exampleDecls exampleCalls exampleRegistry "Gemm" 0 1
    nullCreator (by rfl)).2.1 (by simp [exampleCalls])

/-! ## C18 -/

/-- When `CreateOperation` has invoked a factory, the record of the node's kind holds a factory
under the key of the request. -/
theorem CreateOperation_invoked (D : Decls) (reg : OpRegistryBase)
    (context : OpConstructContext) (operator_def : OperatorDef) (d : DeviceType)
    (mode : NetMode) (key : String) (l : List String) (v : UniquePtr Operation)
    (hdef : context.operator_def_ = some operator_def)
    (h : reg.CreateOperation D context d mode = .ok (key :: l) v) :
    StdMap.find? reg.registry_ operator_def.type ≠ none ∧
    StdMap.find? (reg.recordOf operator_def.type).creators
      (OpRegistryBase.opKey D operator_def.type d (GetOptionalArg operator_def "T" D.DT_FLOAT))
        ≠ none := by
  by_cases hmode : GetOptionalArg operator_def "mode" D.NORMAL = mode
  · by_cases hK : StdMap.find? reg.registry_ operator_def.type = none
    · rw [CreateOperation_notRegistered D reg context operator_def d mode hdef hmode hK] at h
      cases h
    · refine ⟨hK, ?_⟩
      intro hkey
      rw [CreateOperation_keyNotRegistered D reg context operator_def d mode hdef hmode hK
        hkey] at h
      cases h
  · unfold OpRegistryBase.CreateOperation at h
    simp [hdef, hmode] at h

/-- C18 (registry invariant): in every registry built from the empty registry by successful
`Register` calls, for every registered kind `K` a device `d` is in the device set of `K` if and
only if the factory map of `K` holds the key of (`K`, `d`, `t`) for some numeric type `t`; hence
the device set of a registered kind is not empty, and whenever `CreateOperation` invokes a
factory for a node of kind `K` requested on device `d`, `AvailableDevices(K)` returns a set
that contains `d`. -/
theorem C18_registry_invariant (D : Decls) (calls : List Registration) (reg : OpRegistryBase)
    (hreg : RegisterAll D OpRegistryBase.empty calls = .ok reg .MACE_SUCCESS) :
    (∀ (K : String) (info : OpRegistrationInfo), StdMap.find? reg.registry_ K = some info →
      (∀ d : DeviceType, d ∈ info.devices ↔
        ∃ t : DataType, StdMap.find? info.creators (OpRegistryBase.opKey D K d t) ≠ none) ∧
      info.devices.Nonempty) ∧
    (∀ (context : OpConstructContext) (operator_def : OperatorDef) (d : DeviceType)
      (mode : NetMode) (key : String) (l : List String) (v : UniquePtr Operation),
      context.operator_def_ = some operator_def →
      reg.CreateOperation D context d mode = .ok (key :: l) v →
      ∃ ds : Finset DeviceType,
        reg.AvailableDevices operator_def.type = .ok reg ds ∧ d ∈ ds) := by
  have hinv : ∀ (K : String) (info : OpRegistrationInfo),
      StdMap.find? reg.registry_ K = some info →
      ∀ d : DeviceType, d ∈ info.devices ↔
        ∃ t : DataType, StdMap.find? info.creators (OpRegistryBase.opKey D K d t) ≠ none := by
    intro K info hK d
    have hrec : reg.recordOf K = info := by simp [OpRegistryBase.recordOf, hK]
    have hdev := RegisterAll_devices D calls _ reg _ hreg K d
    rw [hrec] at hdev
    constructor
    · intro hd
      rcases hdev.1 hd with h0 | ⟨c, hc, hcK, hcd⟩
      · simp [OpRegistryBase.recordOf, OpRegistryBase.empty, StdMap.find?,
          OpRegistrationInfo.new] at h0
      · have hmem := RegisterAll_mem D calls _ reg _ hreg c hc
        rw [hcK, hrec, hcd] at hmem
        exact ⟨c.dt, by rw [hmem]; simp⟩
    · rintro ⟨t, hkey⟩
      rw [← hrec] at hkey
      rcases RegisterAll_creators D calls _ reg _ hreg K _ hkey with h0 | ⟨c, hc, hcK, hck⟩
      · exact absurd rfl h0
      · exact hdev.2 (Or.inr ⟨c, hc, hcK, (opKey_inj D K _ _ _ _ hck).1⟩)
  constructor
  · intro K info hK
    refine ⟨hinv K info hK, ?_⟩
    rcases (RegisterAll_registered D calls _ reg _ hreg K).1 (by rw [hK]; simp) with
      h0 | ⟨c, hc, hcK⟩
    · exact absurd rfl h0
    · have hrec : reg.recordOf K = info := by simp [OpRegistryBase.recordOf, hK]
      have := (RegisterAll_devices D calls _ reg _ hreg K c.device_type).2
        (Or.inr ⟨c, hc, hcK, rfl⟩)
      rw [hrec] at this
      exact ⟨c.device_type, this⟩
  · intro context operator_def d mode key l v hdef hrun
    obtain ⟨hK, hkey⟩ := CreateOperation_invoked D reg context operator_def d mode key l v hdef
      hrun
    cases hfind : StdMap.find? reg.registry_ operator_def.type with
    | none => exact absurd hfind hK
    | some info =>
      have hrec : reg.recordOf operator_def.type = info := by
        simp [OpRegistryBase.recordOf, hfind]
      rw [hrec] at hkey
      refine ⟨info.devices, ?_, (hinv _ info hfind d).2 ⟨_, hkey⟩⟩
      rw [AvailableDevices_eq, hfind]

/-- C18 at the example: the "Conv" node is built on device 2 by the example registry, and
device 2 is among the available devices of "Conv". -/
theorem C18_registry_invariant_witness :
    ∃ ds : Finset DeviceType,
      exampleRegistry.AvailableDevices "Conv" = .ok exampleRegistry ds ∧ (2 : DeviceType) ∈ ds :=
  (C18_registry_invariant exampleDecls exampleCalls exampleRegistry (by rfl)).2
    exampleContext exampleDef 2 1 "Conv2T_1" []
    (some { operator_def_ := exampleDef, inputs_ := [], outputs_ := [] }) rfl (by rfl)

end mace
